import Mathlib

/-!
Verification of the aggregation engine of the security-guard dashboard.

The engine consists of:
* `filteredActivityData` / `filteredAttendanceData` — the date-range filter,
* `processActivityData` — the activity aggregator (24 hourly buckets,
  per-guard statistics, distinct-guard / location-accuracy metrics),
* `processAttendanceData` — the attendance aggregator (per-location coverage,
  shift metrics),
* `runEffect` — the orchestrator effect that re-derives published state.

Modelling conventions:
* JavaScript date parsing (`new Date(s)`) is an abstract parameter
  `parse : String → Option DateTime`; `none` models an Invalid Date.
  `DateTime` carries an epoch value `t` (for comparisons) and the
  wall-clock `hour` (`getHours()`, always between 0 and 23 for a valid date).
* A JavaScript `NaN` arising in integer arithmetic (`parseInt` failure,
  `0/0`) is modelled with `Option` (`none` = NaN), and NaN propagation
  through `+` with `nanAdd`.
* Indexing `hourlyData[NaN]` yields `undefined` in JavaScript, so
  `undefined.count++` throws a `TypeError`; the activity aggregator is
  therefore modelled as returning `Option` (`none` = thrown exception).
* `Math.round(a / b)` on exact rationals is `⌊(2a + b) / (2b)⌋`
  (`Math.round x = ⌊x + 1/2⌋`), rendered with `Nat` division for
  non-negative quantities and `Int.fdiv` where the numerator may be negative.
* JavaScript objects used as maps are modelled as insertion-ordered
  association lists (`alookup`, `aupdate`), and `Set` as a duplicate-free
  list (`jsSetAdd`).
-/

/-- Result of `new Date(s)` for a string that parses: `t` is the epoch value
used by date comparisons, `hour` is `getHours()` (0–23). -/
structure DateTime where
  t : Int
  hour : Fin 24
deriving DecidableEq, Repr

/-- Activity CSV row (`ActivityRecord` in the source). -/
structure ActivityRecord where
  serviceNumber : String
  userName : String
  dateTime : String
  activity : String
  postName : String
  locationAccuracy : String
  timeAccuracy : String
deriving DecidableEq, Repr

/-- Attendance CSV row (`AttendanceRecord` in the source). -/
structure AttendanceRecord where
  loginDate : String
  postName : String
  shiftTime : String
  fullName : String
  serviceNumber : String
  lateHours : String
  excessHours : String
  noOfMiss : String
deriving DecidableEq, Repr

/-- Per-guard derived statistics (`GuardStats` in the source). -/
structure GuardStats where
  id : String
  name : String
  post : String
  activities : Nat
  locationAccuracy : Nat
  locationIssues : Nat
  onTime : Bool
  missedScans : Nat
  lastActivity : String
  status : String
deriving DecidableEq, Repr

/-- Per-location derived statistics (`LocationStats` in the source).
`coverageRate` is an `Option Int` because `Math.round` of a division with a
zero denominator is NaN (modelled `none`). -/
structure LocationStats where
  name : String
  totalScans : Nat
  accuracyIssues : Nat
  avgAccuracy : Nat
  coverageRate : Option Int
deriving DecidableEq, Repr

/-- Hourly histogram bucket (`ActivityData` in the source). -/
structure ActivityData where
  hour : Nat
  count : Nat
  locationIssues : Nat
deriving DecidableEq, Repr

/-- The merged metrics record (`Metrics` in the source). `onTimeRate` and
`missedScans` can be NaN in the source (unguarded `0/0`, `parseInt` failure),
hence `Option`. -/
structure Metrics where
  totalGuards : Nat
  onTimeRate : Option Nat
  lateCheckIns : Nat
  earlyCheckouts : Nat
  locationErrors : Nat
  avgLocationAccuracy : Nat
  totalShifts : Nat
  missedScans : Option Int
deriving DecidableEq, Repr

/-! ## Small JavaScript-semantics helpers -/

/-- Digits of the first run of decimal digits in a character list
(the regex match `/\d+/`), `none` when there is no digit. -/
def firstDigitRun : List Char → Option (List Char)
  | [] => none
  | c :: cs => if c.isDigit then some (c :: cs.takeWhile Char.isDigit) else firstDigitRun cs

/-- Value of a list of decimal digits. -/
def digitsToNat (cs : List Char) : Nat :=
  cs.foldl (fun a c => 10 * a + (c.toNat - 48)) 0

/-- Model of the regex match followed by `parseInt` on the match: the numeric value of
the first digit run of `s`, `none` when `s` contains no digit (this also
covers the preceding emptiness check of the source, since an empty string has no
digits). -/
def extractNat (s : String) : Option Nat :=
  (firstDigitRun s.data).map digitsToNat

/-- JavaScript `parseInt(s)` (radix 10): skip leading whitespace, optional
sign, then a non-empty digit run; `none` models NaN. -/
def jsParseInt (s : String) : Option Int :=
  let cs := s.data.dropWhile (fun c => c = ' ' ∨ c = '\t' ∨ c = '\n' ∨ c = '\r')
  match cs with
  | '-' :: rest =>
      match rest.takeWhile Char.isDigit with
      | [] => none
      | ds => some (-(digitsToNat ds : Int))
  | '+' :: rest =>
      match rest.takeWhile Char.isDigit with
      | [] => none
      | ds => some (digitsToNat ds : Int)
  | _ =>
      match cs.takeWhile Char.isDigit with
      | [] => none
      | ds => some (digitsToNat ds : Int)

/-- Rounding `Math.round (a / b)` for natural `a`, positive natural `b`:
`⌊a / b + 1/2⌋ = (2a + b) / (2b)` in exact arithmetic. -/
def jsRoundNat (a b : Nat) : Nat :=
  (2 * a + b) / (2 * b)

/-- Rounding `Math.round (a / b)` for integer `a`, positive integer `b` (floor form). -/
def jsRoundInt (a b : Int) : Int :=
  Int.fdiv (2 * a + b) (2 * b)

/-- Coverage rounding `Math.round (((t - i) / t) * 100)` as computed for a location
rate; `none` models the NaN or negative infinity obtained when `t = 0`. -/
def jsCoverage (t i : Nat) : Option Int :=
  if t = 0 then none else some (jsRoundInt (100 * ((t : Int) - (i : Int))) (t : Int))

/-- NaN-propagating addition on JavaScript numbers restricted to integers. -/
def nanAdd : Option Int → Option Int → Option Int
  | some a, some b => some (a + b)
  | _, _ => none

/-- NaN-propagating sum of a list of JavaScript numbers. -/
def nanSum : List (Option Int) → Option Int
  | [] => some 0
  | o :: rest => nanAdd o (nanSum rest)

/-- Comparison `new Date a > new Date b`: false whenever either side is invalid
(NaN comparison). -/
def jsDateGt (parse : String → Option DateTime) (a b : String) : Bool :=
  match parse a, parse b with
  | some x, some y => decide (y.t < x.t)
  | _, _ => false

/-! ## Association lists (JavaScript objects used as string-keyed maps) -/

/-- First value bound to `k`. -/
def alookup {V : Type} : List (String × V) → String → Option V
  | [], _ => none
  | (k, v) :: rest, k' => if k = k' then some v else alookup rest k'

/-- Update the (first) entry bound to `k` in place, keeping insertion order. -/
def aupdate {V : Type} : List (String × V) → String → (V → V) → List (String × V)
  | [], _, _ => []
  | (k, v) :: rest, k', f =>
    if k = k' then (k, f v) :: rest else (k, v) :: aupdate rest k' f

/-- Keys in insertion order. -/
def keysOf {V : Type} (l : List (String × V)) : List String :=
  l.map Prod.fst

/-- JavaScript `Set.add` on a duplicate-free list. -/
def jsSetAdd (l : List String) (s : String) : List String :=
  if s ∈ l then l else l ++ [s]

/-! ## Activity aggregator (`processActivityData`) -/

/-- Mutable locals of `processActivityData` during the `forEach` pass. -/
structure ActState where
  count : Fin 24 → Nat
  issues : Fin 24 → Nat
  uniqueGuards : List String
  totalLocationAccuracy : Nat
  locationReadings : Nat
  locationIssues : Nat
  guardMetrics : List (String × GuardStats)

/-- Initial state: 24 zeroed buckets, empty set, zero totals, empty map. -/
def actInit : ActState :=
  { count := fun _ => 0, issues := fun _ => 0, uniqueGuards := [],
    totalLocationAccuracy := 0, locationReadings := 0, locationIssues := 0,
    guardMetrics := [] }

/-- The `GuardStats` seeded on first sight of a service number. -/
def initGuard (a : ActivityRecord) : GuardStats :=
  { id := a.serviceNumber, name := a.userName, post := a.postName,
    activities := 0, locationAccuracy := 0, locationIssues := 0,
    onTime := a.timeAccuracy = "On Time", missedScans := 0,
    lastActivity := a.dateTime, status := "normal" }

/-- Per-sight guard update: `guard.activities++` then update `lastActivity`
to the later timestamp (dates compared by parsing, NaN comparisons false). -/
def bumpGuard (parse : String → Option DateTime) (a : ActivityRecord) (g : GuardStats) : GuardStats :=
  let g1 := { g with activities := g.activities + 1 }
  if jsDateGt parse a.dateTime g1.lastActivity then { g1 with lastActivity := a.dateTime } else g1

/-- The guard-map part of processing one record (record with non-empty
service number): create on first sight, then bump. -/
def gmRegister (parse : String → Option DateTime) (gm : List (String × GuardStats))
    (a : ActivityRecord) : List (String × GuardStats) :=
  let gm0 := if (alookup gm a.serviceNumber).isSome then gm
             else gm ++ [(a.serviceNumber, initGuard a)]
  aupdate gm0 a.serviceNumber (bumpGuard parse a)

/-- Guard update on a location reading exceeding the 50 m threshold:
increment the issue count and overwrite (not accumulate) the stored value. -/
def accGuard (acc : Nat) (g : GuardStats) : GuardStats :=
  { g with locationIssues := g.locationIssues + 1, locationAccuracy := acc }

/-- One loop iteration of `processActivityData` for a record whose timestamp
parsed to `d` (source lines 136–185). -/
def actApply (parse : String → Option DateTime) (st : ActState) (a : ActivityRecord)
    (d : DateTime) : ActState :=
  let st1 := { st with count := Function.update st.count d.hour (st.count d.hour + 1) }
  let st2 :=
    if a.serviceNumber = "" then st1
    else { st1 with uniqueGuards := jsSetAdd st1.uniqueGuards a.serviceNumber,
                    guardMetrics := gmRegister parse st1.guardMetrics a }
  match extractNat a.locationAccuracy with
  | none => st2
  | some acc =>
    let st3 := { st2 with totalLocationAccuracy := st2.totalLocationAccuracy + acc,
                          locationReadings := st2.locationReadings + 1 }
    if 50 < acc then
      let st4 := { st3 with locationIssues := st3.locationIssues + 1,
                            issues := Function.update st3.issues d.hour (st3.issues d.hour + 1) }
      if a.serviceNumber = "" then st4
      else { st4 with guardMetrics := aupdate st4.guardMetrics a.serviceNumber (accGuard acc) }
    else st3

/-- One loop iteration: an empty timestamp is skipped (`return`), a non-empty
timestamp that fails to parse makes `getHours()` return NaN and
`hourlyData[NaN].count++` throw (`none`). -/
def actStep (parse : String → Option DateTime) (st : ActState) (a : ActivityRecord) :
    Option ActState :=
  if a.dateTime = "" then some st
  else (parse a.dateTime).map (actApply parse st a)

/-- The whole `forEach` pass; `none` when some iteration threw. -/
def actRun (parse : String → Option DateTime) : ActState → List ActivityRecord → Option ActState
  | st, [] => some st
  | st, a :: rest =>
    match actStep parse st a with
    | none => none
    | some st1 => actRun parse st1 rest

/-- Final status derivation (source lines 190–193). -/
def finishGuard (g : GuardStats) : GuardStats :=
  { g with status := if 0 < g.locationIssues ∨ g.onTime = false then "warning" else "normal" }

/-- Everything `processActivityData` publishes. -/
structure ActivityResult where
  activityData : List ActivityData
  guardStats : List GuardStats
  totalGuards : Nat
  locationErrors : Nat
  avgLocationAccuracy : Nat
deriving DecidableEq, Repr

/-- State published after the pass (source lines 188–200). -/
def finishAct (st : ActState) : ActivityResult :=
  { activityData := (List.finRange 24).map
      (fun h => { hour := h.val, count := st.count h, locationIssues := st.issues h }),
    guardStats := st.guardMetrics.map (fun p => finishGuard p.2),
    totalGuards := st.uniqueGuards.length,
    locationErrors := st.locationIssues,
    avgLocationAccuracy :=
      if st.locationReadings = 0 then 0
      else jsRoundNat st.totalLocationAccuracy st.locationReadings }

/-- Model of `processActivityData` (source lines 120–201); `none` models the thrown
`TypeError` reached on a non-empty unparseable timestamp. -/
def processActivityData (parse : String → Option DateTime) (rows : List ActivityRecord) :
    Option ActivityResult :=
  (actRun parse actInit rows).map finishAct

/-! ## Attendance aggregator (`processAttendanceData`) -/

/-- Mutable locals of `processAttendanceData` during the pass. -/
structure AttState where
  totalShifts : Nat
  onTime : Nat
  late : Nat
  missedScans : Option Int
  locationCoverage : List (String × LocationStats)

/-- Initial attendance state. -/
def attInit : AttState :=
  { totalShifts := 0, onTime := 0, late := 0, missedScans := some 0, locationCoverage := [] }

/-- Fresh `LocationStats` entry (source lines 226–232). -/
def initLoc (name : String) : LocationStats :=
  { name := name, totalScans := 0, accuracyIssues := 0, avgAccuracy := 0, coverageRate := some 0 }

/-- Reading of the miss field: an empty field falls back to the digit-zero
string via the falsy-or default; a non-empty field goes through `parseInt`
and may be NaN. -/
def missVal (r : AttendanceRecord) : Option Int :=
  if r.noOfMiss = "" then some 0 else jsParseInt r.noOfMiss

/-- One loop iteration of `processAttendanceData` (source lines 211–239):
records with an empty post name are skipped entirely. -/
def attApply (st : AttState) (r : AttendanceRecord) : AttState :=
  if r.postName = "" then st
  else
    let st1 := { st with totalShifts := st.totalShifts + 1 }
    let st2 := if r.lateHours = "On-time" then { st1 with onTime := st1.onTime + 1 }
               else { st1 with late := st1.late + 1 }
    let st3 := { st2 with missedScans := nanAdd st2.missedScans (missVal r) }
    let lc0 := if (alookup st3.locationCoverage r.postName).isSome then st3.locationCoverage
               else st3.locationCoverage ++ [(r.postName, initLoc r.postName)]
    let lc1 := aupdate lc0 r.postName (fun l => { l with totalScans := l.totalScans + 1 })
    let lc2 := if r.lateHours = "On-time" then lc1
               else aupdate lc1 r.postName (fun l => { l with accuracyIssues := l.accuracyIssues + 1 })
    { st3 with locationCoverage := lc2 }

/-- The whole attendance pass (never throws). -/
def attRun : AttState → List AttendanceRecord → AttState
  | st, [] => st
  | st, r :: rest => attRun (attApply st r) rest

/-- Coverage-rate computation after the pass (source lines 242–246). -/
def finishLoc (l : LocationStats) : LocationStats :=
  { l with coverageRate := jsCoverage l.totalScans l.accuracyIssues }

/-- Everything `processAttendanceData` publishes. -/
structure AttendanceResult where
  locationStats : List LocationStats
  totalShifts : Nat
  onTimeRate : Option Nat
  lateCheckIns : Nat
  missedScans : Option Int
  earlyCheckouts : Nat
deriving DecidableEq, Repr

/-- State published after the pass (source lines 248–256). `onTimeRate` is
`Math.round((onTime / totalShifts) * 100)`, NaN (`none`) when
`totalShifts = 0`; `earlyCheckouts` aliases the late count. -/
def finishAtt (st : AttState) : AttendanceResult :=
  { locationStats := st.locationCoverage.map (fun p => finishLoc p.2),
    totalShifts := st.totalShifts,
    onTimeRate := if st.totalShifts = 0 then none
                  else some (jsRoundNat (100 * st.onTime) st.totalShifts),
    lateCheckIns := st.late,
    missedScans := st.missedScans,
    earlyCheckouts := st.late }

/-- Model of `processAttendanceData` (source lines 204–257). -/
def processAttendanceData (rows : List AttendanceRecord) : AttendanceResult :=
  finishAtt (attRun attInit rows)

/-! ## Date-range filter and orchestrator -/

/-- Comparison `date < bound` on a possibly-invalid date: false for Invalid Date. -/
def jsBeforeBound (d : Option DateTime) (b : Int) : Bool :=
  match d with
  | some x => decide (x.t < b)
  | none => false

/-- Comparison `date > bound` on a possibly-invalid date: false for Invalid Date. -/
def jsAfterBound (d : Option DateTime) (b : Int) : Bool :=
  match d with
  | some x => decide (b < x.t)
  | none => false

/-- The filter predicate shared by both branches of the `useEffect`
(source lines 304–318): drop empty date fields, then drop records strictly
before `startDate` or strictly after `endDate` when those bounds are set. -/
def keepByDate (parse : String → Option DateTime) (s e : Option Int) (dt : String) : Bool :=
  if dt = "" then false
  else
    let d := parse dt
    !((match s with | some b => jsBeforeBound d b | none => false)
      || (match e with | some b => jsAfterBound d b | none => false))

/-- Model of `filteredActivityData` (source lines 304–310), filtering on `Date/Time`. -/
def filteredActivityData (parse : String → Option DateTime) (s e : Option Int)
    (rows : List ActivityRecord) : List ActivityRecord :=
  rows.filter (fun a => keepByDate parse s e a.dateTime)

/-- Model of `filteredAttendanceData` (source lines 312–318), filtering on `Login Date`. -/
def filteredAttendanceData (parse : String → Option DateTime) (s e : Option Int)
    (rows : List AttendanceRecord) : List AttendanceRecord :=
  rows.filter (fun r => keepByDate parse s e r.loginDate)

/-- The slice of component state the aggregation effect reads and writes. -/
structure Published where
  metrics : Metrics
  activityData : List ActivityData
  guardStats : List GuardStats
  locationStats : List LocationStats
deriving DecidableEq, Repr

/-- The four orchestrator inputs plus the currently published outputs. -/
structure DashState where
  activityRaw : List ActivityRecord
  attendanceRaw : List AttendanceRecord
  startDate : Option Int
  endDate : Option Int
  published : Published
deriving DecidableEq, Repr

/-- Merge step `setMetrics(prev => ...)` inside `processActivityData`. -/
def applyActivityMetrics (prev : Metrics) (a : ActivityResult) : Metrics :=
  { prev with totalGuards := a.totalGuards, locationErrors := a.locationErrors,
              avgLocationAccuracy := a.avgLocationAccuracy }

/-- Merge step `setMetrics(prev => ...)` inside `processAttendanceData`. -/
def applyAttendanceMetrics (prev : Metrics) (b : AttendanceResult) : Metrics :=
  { prev with totalShifts := b.totalShifts, onTimeRate := b.onTimeRate,
              lateCheckIns := b.lateCheckIns, missedScans := b.missedScans,
              earlyCheckouts := b.earlyCheckouts }

/-- The re-derivation `useEffect` (source lines 300–323): it returns early
when either raw set is empty, and publishes nothing when the activity pass
throws (the throw happens before any `set...` call). -/
def runEffect (parse : String → Option DateTime) (st : DashState) : Published :=
  if st.activityRaw.isEmpty || st.attendanceRaw.isEmpty then st.published
  else
    let fa := filteredActivityData parse st.startDate st.endDate st.activityRaw
    let fb := filteredAttendanceData parse st.startDate st.endDate st.attendanceRaw
    match processActivityData parse fa with
    | none => st.published
    | some a =>
      let b := processAttendanceData fb
      { metrics := applyAttendanceMetrics (applyActivityMetrics st.published.metrics a) b,
        activityData := a.activityData,
        guardStats := a.guardStats,
        locationStats := b.locationStats }

/-! ## Derived notions used to state the specification -/

/-- A record the activity pass does not skip at line 134: non-empty timestamp. -/
def isLive (a : ActivityRecord) : Bool := a.dateTime != ""

/-- The records actually processed by the activity pass. -/
def liveRows (rows : List ActivityRecord) : List ActivityRecord := rows.filter isLive

/-- Number of processed records carrying service number `k`. -/
def cntSN (k : String) (rows : List ActivityRecord) : Nat :=
  (rows.filter (fun a => isLive a && a.serviceNumber == k)).length

/-- First processed record carrying service number `k`. -/
def firstSN (k : String) (rows : List ActivityRecord) : Option ActivityRecord :=
  (rows.filter (fun a => isLive a && a.serviceNumber == k)).head?

/-- Parsed location-accuracy readings of the processed records, in order. -/
def accVals (rows : List ActivityRecord) : List Nat :=
  (liveRows rows).filterMap (fun a => extractNat a.locationAccuracy)

/-- Sum of the `count` fields of a bucket list. -/
def sumCounts (l : List ActivityData) : Nat := (l.map (fun b => b.count)).sum

/-- Activity count of an optional guard entry (0 when absent). -/
def actsOf : Option GuardStats → Nat
  | some g => g.activities
  | none => 0

/-- Effect of one processed record on the guard entry bound to its own
service number: the per-sight bump, then the over-threshold accuracy update. -/
def gmNext (parse : String → Option DateTime) (a : ActivityRecord) (g : GuardStats) : GuardStats :=
  let g1 := bumpGuard parse a g
  match extractNat a.locationAccuracy with
  | some acc => if 50 < acc then accGuard acc g1 else g1
  | none => g1

/-- Effect of one processed record on the whole guard map. -/
def gmApply (parse : String → Option DateTime) (gm : List (String × GuardStats))
    (a : ActivityRecord) : List (String × GuardStats) :=
  if a.serviceNumber = "" then gm
  else
    match extractNat a.locationAccuracy with
    | some acc =>
        if 50 < acc then aupdate (gmRegister parse gm a) a.serviceNumber (accGuard acc)
        else gmRegister parse gm a
    | none => gmRegister parse gm a

/-- A record the attendance pass does not skip: non-empty post name. -/
def hasPost (r : AttendanceRecord) : Bool := r.postName != ""

/-- The records actually processed by the attendance pass. -/
def postRows (rows : List AttendanceRecord) : List AttendanceRecord := rows.filter hasPost

/-- Number of records for post `k` (for non-empty `k` these all have a post). -/
def cntPost (k : String) (rows : List AttendanceRecord) : Nat :=
  (rows.filter (fun r => r.postName == k)).length

/-- Number of not-on-time records for post `k`. -/
def cntPostLate (k : String) (rows : List AttendanceRecord) : Nat :=
  (rows.filter (fun r => r.postName == k && !(r.lateHours == "On-time"))).length

/-- The miss-count summands of the processed records, in order. -/
def missVals (rows : List AttendanceRecord) : List (Option Int) :=
  (postRows rows).map missVal

/-- Total scans of an optional location entry (0 when absent). -/
def tsOf : Option LocationStats → Nat
  | some l => l.totalScans
  | none => 0

/-- Accuracy issues of an optional location entry (0 when absent). -/
def aiOf : Option LocationStats → Nat
  | some l => l.accuracyIssues
  | none => 0

/-- Effect of one processed record on the location entry bound to its post. -/
def locNext (r : AttendanceRecord) (l : LocationStats) : LocationStats :=
  let l1 := { l with totalScans := l.totalScans + 1 }
  if r.lateHours = "On-time" then l1
  else { l1 with accuracyIssues := l1.accuracyIssues + 1 }

/-- Effect of one processed record on the whole location map. -/
def lcApply (lc : List (String × LocationStats)) (r : AttendanceRecord) :
    List (String × LocationStats) :=
  if r.postName = "" then lc
  else
    let lc0 := if (alookup lc r.postName).isSome then lc
               else lc ++ [(r.postName, initLoc r.postName)]
    let lc1 := aupdate lc0 r.postName (fun l => { l with totalScans := l.totalScans + 1 })
    if r.lateHours = "On-time" then lc1
    else aupdate lc1 r.postName (fun l => { l with accuracyIssues := l.accuracyIssues + 1 })

/-! ## Definitions following the specification text (for refutation or
refinement comparison; these follow the words of the spec or claim, not the
source, and are clearly named `spec...` / `claim...`) -/

/-- Follows the words of claim C2: 0 when no row has a parseable numeric
accuracy value, otherwise `round(sum/count)` over exactly the rows whose
parsed accuracy exceeds 50. -/
def claimAvgC2 (rows : List ActivityRecord) : Nat :=
  let vals := rows.filterMap (fun a => extractNat a.locationAccuracy)
  if vals.isEmpty then 0
  else
    let big := vals.filter (fun v => 50 < v)
    jsRoundNat big.sum big.length

/-- Follows the words of claim C3: keep exactly the records whose date field
parses successfully and lies within the bounds inclusively. -/
def specKeepC3 (parse : String → Option DateTime) (s e : Option Int) (dt : String) : Bool :=
  match parse dt with
  | none => false
  | some d =>
      (match s with | none => true | some b => decide (b ≤ d.t)) &&
      (match e with | none => true | some b => decide (d.t ≤ b))

/-- The record filter as claim C3 describes it, on activity rows. -/
def specFilteredActivityC3 (parse : String → Option DateTime) (s e : Option Int)
    (rows : List ActivityRecord) : List ActivityRecord :=
  rows.filter (fun a => specKeepC3 parse s e a.dateTime)

/-- The amended filter predicate actually implemented: empty date fields are
dropped; a non-empty date field that fails to parse is kept (Invalid-Date
comparisons are false); parseable dates are kept within inclusive bounds. -/
def keepAmended (parse : String → Option DateTime) (s e : Option Int) (dt : String) : Bool :=
  if dt = "" then false
  else
    match parse dt with
    | none => true
    | some d =>
        (match s with | none => true | some b => decide (b ≤ d.t)) &&
        (match e with | none => true | some b => decide (d.t ≤ b))

/-- Follows the words of claim C6: each miss field read as a non-negative
integer, defaulting to 0 on empty or unparseable input, summed over records
with a non-empty post name. -/
def specMissTotalC6 (rows : List AttendanceRecord) : Nat :=
  ((rows.filter hasPost).map (fun r =>
    match jsParseInt r.noOfMiss with
    | some v => v.toNat
    | none => 0)).sum

/-- The published value a from-scratch derivation produces (all metric
fields owned by one of the two aggregators). -/
def mkPublished (a : ActivityResult) (b : AttendanceResult) : Published :=
  { metrics := { totalGuards := a.totalGuards, onTimeRate := b.onTimeRate,
                 lateCheckIns := b.lateCheckIns, earlyCheckouts := b.earlyCheckouts,
                 locationErrors := a.locationErrors,
                 avgLocationAccuracy := a.avgLocationAccuracy,
                 totalShifts := b.totalShifts, missedScans := b.missedScans },
    activityData := a.activityData,
    guardStats := a.guardStats,
    locationStats := b.locationStats }

/-- Follows the words of claim C5: unconditionally filter the current raw
sets with the current bounds, run both aggregators, and publish the merged
result (`none` when the activity pass throws). -/
def specRecompute (parse : String → Option DateTime) (actRaw : List ActivityRecord)
    (attRaw : List AttendanceRecord) (s e : Option Int) : Option Published :=
  (processActivityData parse (filteredActivityData parse s e actRaw)).map
    (fun a => mkPublished a (processAttendanceData (filteredAttendanceData parse s e attRaw)))

/-! ## Concrete inputs used by counterexamples and witnesses -/

/-- A parse function for which every string is an Invalid Date. -/
def noParse : String → Option DateTime := fun _ => none

/-- A parse function accepting exactly the timestamp string `t`
(epoch 0, hour 14). -/
def parseT : String → Option DateTime :=
  fun s => if s = "t" then some ⟨0, 14⟩ else none

/-- Activity row with a non-empty unparseable timestamp. -/
def rowBadTs : ActivityRecord := ⟨"", "", "x", "", "", "", ""⟩

/-- Activity row with a parseable timestamp and no other data. -/
def rowLive : ActivityRecord := ⟨"", "", "t", "", "", "", ""⟩

/-- Activity row, empty service number, accuracy text 75m. -/
def rowAcc75 : ActivityRecord := ⟨"", "", "t", "", "", "75m", ""⟩

/-- Activity row, empty service number, accuracy text 30m. -/
def rowAcc30 : ActivityRecord := ⟨"", "", "t", "", "", "30m", ""⟩

/-- Activity row for guard SN1, on time, accuracy 75m. -/
def gRow1 : ActivityRecord := ⟨"SN1", "Alice", "t", "", "Gate", "75m", "On Time"⟩

/-- Later activity row for guard SN1 with a different time-accuracy text. -/
def gRowLate : ActivityRecord := ⟨"SN1", "Alice", "t", "", "Gate", "", "Late"⟩

/-- Activity row with an empty service number but real bucket/accuracy data. -/
def gRowAnon : ActivityRecord := ⟨"", "Bob", "t", "", "Gate", "30m", ""⟩

/-- Attendance row, post Gate-1, on time, one miss. -/
def attRowA : AttendanceRecord := ⟨"d", "Gate-1", "", "", "", "On-time", "", "1"⟩

/-- Attendance row, post Gate-1, late, zero misses. -/
def attRowLate : AttendanceRecord := ⟨"d", "Gate-1", "", "", "", "Late", "", "0"⟩

/-- Attendance row, post B, not on time, empty miss field. -/
def attRowB : AttendanceRecord := ⟨"d", "B", "", "", "", "X", "", ""⟩

/-- Attendance row whose miss field parses to NaN. -/
def attRowMissBad : AttendanceRecord := ⟨"d", "A", "", "", "", "", "", "abc"⟩

/-- Stale published state distinguishable from any freshly derived one. -/
def pubStale : Published :=
  { metrics := ⟨5, some 7, 0, 0, 0, 0, 99, some 3⟩,
    activityData := [], guardStats := [], locationStats := [] }

/-- Orchestrator state with an empty raw activity set (the effect returns
early) and a non-empty raw attendance set. -/
def stSkip : DashState :=
  ⟨[], [attRowA], none, none, pubStale⟩

/-- Orchestrator state with both raw sets non-empty. -/
def stBoth : DashState :=
  ⟨[rowAcc75], [attRowA], none, none, pubStale⟩

/-- Bucket list that is zero everywhere except hour 14. -/
def bucketsOnly14 (c i : Nat) : List ActivityData :=
  (List.finRange 24).map (fun h =>
    { hour := h.val, count := if h.val = 14 then c else 0,
      locationIssues := if h.val = 14 then i else 0 })

/-- Expected output of the activity pass on `[rowAcc75, rowAcc30]`. -/
def resC2W : ActivityResult :=
  { activityData := bucketsOnly14 2 1, guardStats := [], totalGuards := 0,
    locationErrors := 1, avgLocationAccuracy := 53 }

/-- Expected output of the activity pass on `[gRow1, gRowAnon]`. -/
def resC7W : ActivityResult :=
  { activityData := bucketsOnly14 2 1,
    guardStats := [{ id := "SN1", name := "Alice", post := "Gate", activities := 1,
                     locationAccuracy := 75, locationIssues := 1, onTime := true,
                     missedScans := 0, lastActivity := "t", status := "warning" }],
    totalGuards := 1, locationErrors := 1, avgLocationAccuracy := 53 }

/-- Expected output of the activity pass on `[gRow1, gRowLate]`. -/
def resC9W : ActivityResult :=
  { activityData := bucketsOnly14 2 1,
    guardStats := [{ id := "SN1", name := "Alice", post := "Gate", activities := 2,
                     locationAccuracy := 75, locationIssues := 1, onTime := true,
                     missedScans := 0, lastActivity := "t", status := "warning" }],
    totalGuards := 1, locationErrors := 1, avgLocationAccuracy := 75 }

/-- Expected Gate-1 entry of the attendance pass on `[attRowA, attRowLate]`. -/
def locC8W : LocationStats :=
  { name := "Gate-1", totalScans := 2, accuracyIssues := 1, avgAccuracy := 0,
    coverageRate := some 50 }

/-- Expected B entry of the attendance pass on `[attRowB]`. -/
def locC10W : LocationStats :=
  { name := "B", totalScans := 1, accuracyIssues := 1, avgAccuracy := 0,
    coverageRate := some 0 }

/-- Expected single guard entry of the activity pass on `[gRow1, gRowLate]`. -/
def gC9W : GuardStats :=
  { id := "SN1", name := "Alice", post := "Gate", activities := 2,
    locationAccuracy := 75, locationIssues := 1, onTime := true,
    missedScans := 0, lastActivity := "t", status := "warning" }

/-! ## Association-list and set lemmas -/

theorem alookup_aupdate {V : Type} (l : List (String × V)) (k k' : String) (f : V → V) :
    alookup (aupdate l k f) k' =
      if k' = k then (alookup l k).map f else alookup l k' := by
  induction l with
  | nil =>
    simp only [aupdate, alookup]
    split <;> simp
  | cons p rest ih =>
    obtain ⟨k1, v⟩ := p
    simp only [aupdate]
    by_cases h1 : k1 = k
    · subst h1
      simp only [if_pos rfl, alookup]
      by_cases h2 : k1 = k'
      · subst h2; simp
      · have h2' : ¬ k' = k1 := fun h => h2 h.symm
        simp [h2, h2']
    · simp only [if_neg h1, alookup]
      by_cases h2 : k1 = k'
      · subst h2
        simp [alookup, h1]
      · simp [alookup, h1, h2, ih]

theorem alookup_append_single {V : Type} (l : List (String × V)) (k k' : String) (v : V) :
    alookup (l ++ [(k, v)]) k' =
      match alookup l k' with
      | some w => some w
      | none => if k = k' then some v else none := by
  induction l with
  | nil => simp [alookup]
  | cons p rest ih =>
    obtain ⟨k1, v1⟩ := p
    by_cases h1 : k1 = k'
    · simp [alookup, h1]
    · simp [alookup, h1, ih]

theorem keysOf_aupdate {V : Type} (l : List (String × V)) (k : String) (f : V → V) :
    keysOf (aupdate l k f) = keysOf l := by
  induction l with
  | nil => rfl
  | cons p rest ih =>
    obtain ⟨k1, v1⟩ := p
    by_cases h1 : k1 = k
    · simp [aupdate, keysOf, h1]
    · simp only [aupdate, if_neg h1, keysOf, List.map_cons]
      simpa [keysOf] using ih

theorem keysOf_append_single {V : Type} (l : List (String × V)) (k : String) (v : V) :
    keysOf (l ++ [(k, v)]) = keysOf l ++ [k] := by
  simp [keysOf]

theorem alookup_isSome_iff_mem {V : Type} (l : List (String × V)) (k : String) :
    (alookup l k).isSome ↔ k ∈ keysOf l := by
  induction l with
  | nil => simp [alookup, keysOf]
  | cons p rest ih =>
    obtain ⟨k1, v1⟩ := p
    by_cases h1 : k1 = k
    · subst h1; simp [alookup, keysOf]
    · have h1' : ¬ k = k1 := fun h => h1 h.symm
      simp [alookup, keysOf, h1, h1', ih]

theorem alookup_eq_none_iff_not_mem {V : Type} (l : List (String × V)) (k : String) :
    alookup l k = none ↔ k ∉ keysOf l := by
  rw [← alookup_isSome_iff_mem]
  cases alookup l k <;> simp

theorem mem_keysOf_of_mem {V : Type} {l : List (String × V)} {p : String × V}
    (h : p ∈ l) : p.1 ∈ keysOf l := by
  simp only [keysOf, List.mem_map]
  exact ⟨p, h, rfl⟩

theorem alookup_of_mem_nodup {V : Type} {l : List (String × V)} {p : String × V}
    (hd : (keysOf l).Nodup) (h : p ∈ l) : alookup l p.1 = some p.2 := by
  induction l with
  | nil => simp at h
  | cons q rest ih =>
    obtain ⟨k1, v1⟩ := q
    simp only [keysOf, List.map_cons, List.nodup_cons] at hd
    rcases List.mem_cons.mp h with h | h
    · subst h; simp [alookup]
    · have hk : k1 ≠ p.1 := by
        intro he
        exact hd.1 (he ▸ mem_keysOf_of_mem h)
      simp only [alookup, hk, if_false]
      exact ih (by simpa [keysOf] using hd.2) h

theorem mem_of_alookup_eq_some {V : Type} {l : List (String × V)} {k : String} {v : V}
    (h : alookup l k = some v) : (k, v) ∈ l := by
  induction l with
  | nil => simp [alookup] at h
  | cons q rest ih =>
    obtain ⟨k1, v1⟩ := q
    by_cases h1 : k1 = k
    · subst h1
      simp [alookup] at h
      simp [h]
    · simp [alookup, h1] at h
      exact List.mem_cons_of_mem _ (ih h)

theorem mem_jsSetAdd (l : List String) (s x : String) :
    x ∈ jsSetAdd l s ↔ x ∈ l ∨ x = s := by
  unfold jsSetAdd
  by_cases h : s ∈ l
  · simp only [h, if_true]
    constructor
    · exact Or.inl
    · rintro (hx | rfl) <;> assumption
  · simp [h]

theorem nodup_jsSetAdd (l : List String) (s : String) (hd : l.Nodup) :
    (jsSetAdd l s).Nodup := by
  unfold jsSetAdd
  by_cases h : s ∈ l
  · simpa [h]
  · rw [if_neg h, List.nodup_append]
    exact ⟨hd, List.nodup_singleton s, fun a ha hb => by
      rw [List.mem_singleton] at hb
      exact h (hb ▸ ha)⟩


/-! ## Row-level structural lemmas -/

theorem isLive_iff {a : ActivityRecord} : isLive a = true ↔ a.dateTime ≠ "" := by
  simp [isLive]

theorem liveRows_cons (a : ActivityRecord) (rows : List ActivityRecord) :
    liveRows (a :: rows) = if isLive a then a :: liveRows rows else liveRows rows := by
  simp [liveRows, List.filter_cons]

theorem accVals_cons (a : ActivityRecord) (rows : List ActivityRecord) :
    accVals (a :: rows) =
      if isLive a then
        match extractNat a.locationAccuracy with
        | some v => v :: accVals rows
        | none => accVals rows
      else accVals rows := by
  by_cases h : isLive a
  · cases hext : extractNat a.locationAccuracy <;>
      simp [accVals, liveRows, List.filter_cons, h, List.filterMap_cons, hext]
  · simp [accVals, liveRows, List.filter_cons, h]

theorem cntSN_cons (k : String) (a : ActivityRecord) (rows : List ActivityRecord) :
    cntSN k (a :: rows) =
      cntSN k rows + (if isLive a && a.serviceNumber == k then 1 else 0) := by
  simp only [cntSN, List.filter_cons]
  split <;> simp

theorem firstSN_cons (k : String) (a : ActivityRecord) (rows : List ActivityRecord) :
    firstSN k (a :: rows) =
      if isLive a && a.serviceNumber == k then some a else firstSN k rows := by
  simp only [firstSN, List.filter_cons]
  split <;> simp [firstSN]

theorem sum_update_add_one (f : Fin 24 → Nat) (i : Fin 24) :
    (∑ h : Fin 24, Function.update f i (f i + 1) h) = (∑ h : Fin 24, f h) + 1 := by
  rw [Finset.sum_update_of_mem (Finset.mem_univ i)]
  rw [Finset.sum_eq_sum_diff_singleton_add (Finset.mem_univ i) f]
  omega

theorem sumCounts_finishAct (st : ActState) :
    sumCounts (finishAct st).activityData = ∑ h : Fin 24, st.count h := by
  simp [sumCounts, finishAct, List.map_map, Fin.sum_univ_def]
  rfl

theorem nanAdd_zero (x : Option Int) : nanAdd x (some 0) = x := by
  cases x <;> simp [nanAdd]

theorem nanAdd_assoc (x y z : Option Int) :
    nanAdd (nanAdd x y) z = nanAdd x (nanAdd y z) := by
  cases x <;> cases y <;> cases z <;> simp [nanAdd, Int.add_assoc]

/-! ## Guard-map step lemmas -/

theorem bumpGuard_activities (parse : String → Option DateTime) (a : ActivityRecord)
    (g : GuardStats) : (bumpGuard parse a g).activities = g.activities + 1 := by
  cases hj : jsDateGt parse a.dateTime g.lastActivity <;> simp [bumpGuard, hj]

theorem bumpGuard_onTime (parse : String → Option DateTime) (a : ActivityRecord)
    (g : GuardStats) : (bumpGuard parse a g).onTime = g.onTime := by
  cases hj : jsDateGt parse a.dateTime g.lastActivity <;> simp [bumpGuard, hj]

theorem bumpGuard_id (parse : String → Option DateTime) (a : ActivityRecord)
    (g : GuardStats) : (bumpGuard parse a g).id = g.id := by
  cases hj : jsDateGt parse a.dateTime g.lastActivity <;> simp [bumpGuard, hj]

theorem gmNext_activities (parse : String → Option DateTime) (a : ActivityRecord)
    (g : GuardStats) : (gmNext parse a g).activities = g.activities + 1 := by
  unfold gmNext
  cases hext : extractNat a.locationAccuracy with
  | none => simp [bumpGuard_activities]
  | some acc =>
    by_cases hacc : 50 < acc
    · simp [hacc, accGuard, bumpGuard_activities]
    · simp [hacc, bumpGuard_activities]

theorem gmNext_onTime (parse : String → Option DateTime) (a : ActivityRecord)
    (g : GuardStats) : (gmNext parse a g).onTime = g.onTime := by
  unfold gmNext
  cases hext : extractNat a.locationAccuracy with
  | none => simp [bumpGuard_onTime]
  | some acc =>
    by_cases hacc : 50 < acc
    · simp [hacc, accGuard, bumpGuard_onTime]
    · simp [hacc, bumpGuard_onTime]

theorem gmNext_id (parse : String → Option DateTime) (a : ActivityRecord)
    (g : GuardStats) : (gmNext parse a g).id = g.id := by
  unfold gmNext
  cases hext : extractNat a.locationAccuracy with
  | none => simp [bumpGuard_id]
  | some acc =>
    by_cases hacc : 50 < acc
    · simp [hacc, accGuard, bumpGuard_id]
    · simp [hacc, bumpGuard_id]

theorem alookup_gmRegister_self (parse : String → Option DateTime)
    (gm : List (String × GuardStats)) (a : ActivityRecord) :
    alookup (gmRegister parse gm a) a.serviceNumber =
      some (bumpGuard parse a ((alookup gm a.serviceNumber).getD (initGuard a))) := by
  unfold gmRegister
  cases hg : alookup gm a.serviceNumber with
  | some g =>
    simp only [hg, Option.isSome_some, if_true]
    rw [alookup_aupdate, if_pos rfl, hg]
    rfl
  | none =>
    simp only [hg, Option.isSome_none, Bool.false_eq_true, if_false]
    rw [alookup_aupdate, if_pos rfl, alookup_append_single, hg]
    simp

theorem alookup_gmRegister_ne (parse : String → Option DateTime)
    (gm : List (String × GuardStats)) (a : ActivityRecord) (k : String)
    (hk : k ≠ a.serviceNumber) :
    alookup (gmRegister parse gm a) k = alookup gm k := by
  unfold gmRegister
  rw [alookup_aupdate, if_neg hk]
  cases hg : alookup gm a.serviceNumber with
  | some g => simp
  | none =>
    simp only [Option.isSome_none, Bool.false_eq_true, if_false]
    rw [alookup_append_single]
    cases hgk : alookup gm k with
    | some w => simp
    | none =>
      have hne : ¬ a.serviceNumber = k := fun h => hk h.symm
      simp [hne]

theorem alookup_gmApply_self (parse : String → Option DateTime)
    (gm : List (String × GuardStats)) (a : ActivityRecord) (hsn : a.serviceNumber ≠ "") :
    alookup (gmApply parse gm a) a.serviceNumber =
      some (gmNext parse a ((alookup gm a.serviceNumber).getD (initGuard a))) := by
  unfold gmApply gmNext
  rw [if_neg hsn]
  cases hext : extractNat a.locationAccuracy with
  | none => simp [hext, alookup_gmRegister_self]
  | some acc =>
    dsimp only
    by_cases hacc : 50 < acc
    · rw [if_pos hacc, if_pos hacc, alookup_aupdate, if_pos rfl, alookup_gmRegister_self]
      rfl
    · rw [if_neg hacc, if_neg hacc, alookup_gmRegister_self]

theorem alookup_gmApply_ne (parse : String → Option DateTime)
    (gm : List (String × GuardStats)) (a : ActivityRecord) (k : String)
    (hk : k ≠ a.serviceNumber) :
    alookup (gmApply parse gm a) k = alookup gm k := by
  unfold gmApply
  by_cases hsn : a.serviceNumber = ""
  · rw [if_pos hsn]
  · rw [if_neg hsn]
    cases hext : extractNat a.locationAccuracy with
    | none => exact alookup_gmRegister_ne parse gm a k hk
    | some acc =>
      dsimp only
      by_cases hacc : 50 < acc
      · rw [if_pos hacc, alookup_aupdate, if_neg hk]
        exact alookup_gmRegister_ne parse gm a k hk
      · rw [if_neg hacc]
        exact alookup_gmRegister_ne parse gm a k hk

theorem keysOf_gmRegister (parse : String → Option DateTime)
    (gm : List (String × GuardStats)) (a : ActivityRecord) :
    keysOf (gmRegister parse gm a) =
      if (alookup gm a.serviceNumber).isSome then keysOf gm
      else keysOf gm ++ [a.serviceNumber] := by
  unfold gmRegister
  rw [keysOf_aupdate]
  split
  · rfl
  · exact keysOf_append_single gm a.serviceNumber (initGuard a)

theorem keysOf_gmApply (parse : String → Option DateTime)
    (gm : List (String × GuardStats)) (a : ActivityRecord) :
    keysOf (gmApply parse gm a) =
      if a.serviceNumber = "" ∨ (alookup gm a.serviceNumber).isSome then keysOf gm
      else keysOf gm ++ [a.serviceNumber] := by
  unfold gmApply
  by_cases hsn : a.serviceNumber = ""
  · simp [hsn]
  · rw [if_neg hsn]
    cases hext : extractNat a.locationAccuracy with
    | none => rw [keysOf_gmRegister]; simp [hsn]
    | some acc =>
      dsimp only
      by_cases hacc : 50 < acc
      · rw [if_pos hacc, keysOf_aupdate, keysOf_gmRegister]; simp [hsn]
      · rw [if_neg hacc, keysOf_gmRegister]; simp [hsn]

theorem mem_aupdate {V : Type} {l : List (String × V)} {k : String} {f : V → V}
    {p : String × V} (h : p ∈ aupdate l k f) :
    p ∈ l ∨ ∃ v, (k, v) ∈ l ∧ p = (k, f v) := by
  induction l with
  | nil => simp [aupdate] at h
  | cons q rest ih =>
    obtain ⟨k1, v1⟩ := q
    by_cases h1 : k1 = k
    · subst h1
      rw [aupdate, if_pos rfl] at h
      rcases List.mem_cons.mp h with h | h
      · exact Or.inr ⟨v1, List.mem_cons_self _ _, h⟩
      · exact Or.inl (List.mem_cons_of_mem _ h)
    · rw [aupdate, if_neg h1] at h
      rcases List.mem_cons.mp h with h | h
      · exact Or.inl (by simp [h])
      · rcases ih h with h | ⟨v, hv, hp⟩
        · exact Or.inl (List.mem_cons_of_mem _ h)
        · exact Or.inr ⟨v, List.mem_cons_of_mem _ hv, hp⟩

/-! ## Activity-pass step projections and inversions -/

theorem actApply_count (parse : String → Option DateTime) (st : ActState)
    (a : ActivityRecord) (d : DateTime) :
    (actApply parse st a d).count = Function.update st.count d.hour (st.count d.hour + 1) := by
  unfold actApply
  cases hext : extractNat a.locationAccuracy with
  | none => by_cases hsn : a.serviceNumber = "" <;> simp [hsn]
  | some acc =>
    by_cases hsn : a.serviceNumber = "" <;> by_cases hacc : 50 < acc <;> simp [hsn, hacc]

theorem actApply_locationReadings (parse : String → Option DateTime) (st : ActState)
    (a : ActivityRecord) (d : DateTime) :
    (actApply parse st a d).locationReadings =
      st.locationReadings + (if (extractNat a.locationAccuracy).isSome then 1 else 0) := by
  unfold actApply
  cases hext : extractNat a.locationAccuracy with
  | none => by_cases hsn : a.serviceNumber = "" <;> simp [hsn]
  | some acc =>
    by_cases hsn : a.serviceNumber = "" <;> by_cases hacc : 50 < acc <;> simp [hsn, hacc]

theorem actApply_totalLocationAccuracy (parse : String → Option DateTime) (st : ActState)
    (a : ActivityRecord) (d : DateTime) :
    (actApply parse st a d).totalLocationAccuracy =
      st.totalLocationAccuracy + (extractNat a.locationAccuracy).getD 0 := by
  unfold actApply
  cases hext : extractNat a.locationAccuracy with
  | none => by_cases hsn : a.serviceNumber = "" <;> simp [hsn]
  | some acc =>
    by_cases hsn : a.serviceNumber = "" <;> by_cases hacc : 50 < acc <;> simp [hsn, hacc]

theorem actApply_uniqueGuards (parse : String → Option DateTime) (st : ActState)
    (a : ActivityRecord) (d : DateTime) :
    (actApply parse st a d).uniqueGuards =
      if a.serviceNumber = "" then st.uniqueGuards
      else jsSetAdd st.uniqueGuards a.serviceNumber := by
  unfold actApply
  cases hext : extractNat a.locationAccuracy with
  | none => by_cases hsn : a.serviceNumber = "" <;> simp [hsn]
  | some acc =>
    by_cases hsn : a.serviceNumber = "" <;> by_cases hacc : 50 < acc <;> simp [hsn, hacc]

theorem actApply_guardMetrics (parse : String → Option DateTime) (st : ActState)
    (a : ActivityRecord) (d : DateTime) :
    (actApply parse st a d).guardMetrics = gmApply parse st.guardMetrics a := by
  unfold actApply gmApply
  cases hext : extractNat a.locationAccuracy with
  | none => by_cases hsn : a.serviceNumber = "" <;> simp [hsn]
  | some acc =>
    by_cases hsn : a.serviceNumber = "" <;> by_cases hacc : 50 < acc <;> simp [hsn, hacc]

theorem actStep_skip (parse : String → Option DateTime) (st : ActState) (a : ActivityRecord)
    (h : a.dateTime = "") : actStep parse st a = some st := by
  simp [actStep, h]

theorem actStep_live (parse : String → Option DateTime) (st : ActState) (a : ActivityRecord)
    (d : DateTime) (h : a.dateTime ≠ "") (hp : parse a.dateTime = some d) :
    actStep parse st a = some (actApply parse st a d) := by
  simp [actStep, h, hp]

theorem actStep_throw (parse : String → Option DateTime) (st : ActState) (a : ActivityRecord)
    (h : a.dateTime ≠ "") (hp : parse a.dateTime = none) :
    actStep parse st a = none := by
  simp [actStep, h, hp]

theorem actRun_cons_inv (parse : String → Option DateTime) (st : ActState)
    (a : ActivityRecord) (rest : List ActivityRecord) (st' : ActState)
    (h : actRun parse st (a :: rest) = some st') :
    ∃ st1, actStep parse st a = some st1 ∧ actRun parse st1 rest = some st' := by
  simp only [actRun] at h
  cases hstep : actStep parse st a with
  | none => simp [hstep] at h
  | some st1 =>
    simp only [hstep] at h
    exact ⟨st1, rfl, h⟩

theorem actStep_inv (parse : String → Option DateTime) (st : ActState) (a : ActivityRecord)
    (st1 : ActState) (h : actStep parse st a = some st1) :
    (a.dateTime = "" ∧ st1 = st) ∨
    (a.dateTime ≠ "" ∧ ∃ d, parse a.dateTime = some d ∧ st1 = actApply parse st a d) := by
  unfold actStep at h
  by_cases hdt : a.dateTime = ""
  · rw [if_pos hdt] at h
    injection h with h
    exact Or.inl ⟨hdt, h.symm⟩
  · rw [if_neg hdt] at h
    cases hp : parse a.dateTime with
    | none => rw [hp] at h; simp at h
    | some d =>
      rw [hp] at h
      rw [show Option.map (actApply parse st a) (some d) = some (actApply parse st a d) from rfl] at h
      injection h with h
      exact Or.inr ⟨hdt, d, rfl, h.symm⟩

/-! ## Activity-pass fold lemmas -/

theorem actRun_isSome_iff (parse : String → Option DateTime) :
    ∀ (rows : List ActivityRecord) (st : ActState),
    (actRun parse st rows).isSome ↔
      ∀ a ∈ rows, a.dateTime ≠ "" → (parse a.dateTime).isSome := by
  intro rows
  induction rows with
  | nil => intro st; simp [actRun]
  | cons a rest ih =>
    intro st
    by_cases hdt : a.dateTime = ""
    · have hrun : actRun parse st (a :: rest) = actRun parse st rest := by
        simp only [actRun, actStep_skip parse st a hdt]
      rw [hrun, ih st]
      simp [List.forall_mem_cons, hdt]
    · cases hp : parse a.dateTime with
      | none =>
        have hrun : actRun parse st (a :: rest) = none := by
          simp only [actRun, actStep_throw parse st a hdt hp]
        rw [hrun]
        simp only [Option.isSome_none, Bool.false_eq_true, false_iff]
        intro hall
        have := hall a (List.mem_cons_self a rest) hdt
        rw [hp] at this
        simp at this
      | some d =>
        have hrun : actRun parse st (a :: rest) = actRun parse (actApply parse st a d) rest := by
          simp only [actRun, actStep_live parse st a d hdt hp]
        rw [hrun, ih _]
        simp [List.forall_mem_cons, hp]

theorem actRun_totals (parse : String → Option DateTime) :
    ∀ (rows : List ActivityRecord) (st st' : ActState),
    actRun parse st rows = some st' →
    ((∑ h : Fin 24, st'.count h) = (∑ h : Fin 24, st.count h) + (liveRows rows).length ∧
     st'.locationReadings = st.locationReadings + (accVals rows).length ∧
     st'.totalLocationAccuracy = st.totalLocationAccuracy + (accVals rows).sum) := by
  intro rows
  induction rows with
  | nil =>
    intro st st' h
    simp only [actRun] at h
    injection h with h
    subst h
    simp [liveRows, accVals]
  | cons a rest ih =>
    intro st st' h
    obtain ⟨st1, hstep, hrun⟩ := actRun_cons_inv parse st a rest st' h
    rcases actStep_inv parse st a st1 hstep with ⟨hdt, heq⟩ | ⟨hdt, d, hp, heq⟩
    · rw [heq] at hrun
      have hlive : isLive a = false := by simp [isLive, hdt]
      rcases ih st st' hrun with ⟨h1, h2, h3⟩
      rw [liveRows_cons, accVals_cons, hlive]
      simp only [Bool.false_eq_true, if_false]
      exact ⟨h1, h2, h3⟩
    · rw [heq] at hrun
      have hlive : isLive a = true := by simp [isLive, hdt]
      rcases ih (actApply parse st a d) st' hrun with ⟨h1, h2, h3⟩
      rw [liveRows_cons, accVals_cons, hlive]
      simp only [if_true]
      refine ⟨?_, ?_, ?_⟩
      · rw [h1, actApply_count, sum_update_add_one, List.length_cons]
        omega
      · rw [h2, actApply_locationReadings]
        cases hext : extractNat a.locationAccuracy <;> (simp [hext]; try omega)
      · rw [h3, actApply_totalLocationAccuracy]
        cases hext : extractNat a.locationAccuracy <;> (simp [hext]; try omega)

/-! ## Guard-map fold lemmas -/

theorem aupdate_pred {V : Type} (P : String → V → Prop) (l : List (String × V)) (k : String)
    (f : V → V) (hl : ∀ p ∈ l, P p.1 p.2) (hf : ∀ v, P k v → P k (f v)) :
    ∀ p ∈ aupdate l k f, P p.1 p.2 := by
  intro p hp
  rcases mem_aupdate hp with hp | ⟨v, hv, rfl⟩
  · exact hl p hp
  · exact hf v (hl (k, v) hv)

theorem gmRegister_pred (parse : String → Option DateTime) (gm : List (String × GuardStats))
    (a : ActivityRecord) (P : String → GuardStats → Prop)
    (hgm : ∀ p ∈ gm, P p.1 p.2)
    (hinit : P a.serviceNumber (initGuard a))
    (hbump : ∀ g, P a.serviceNumber g → P a.serviceNumber (bumpGuard parse a g)) :
    ∀ p ∈ gmRegister parse gm a, P p.1 p.2 := by
  unfold gmRegister
  refine aupdate_pred P _ a.serviceNumber (bumpGuard parse a) ?_ hbump
  by_cases hsome : (alookup gm a.serviceNumber).isSome
  · rw [if_pos hsome]; exact hgm
  · rw [if_neg hsome]
    intro p hp
    rcases List.mem_append.mp hp with hp | hp
    · exact hgm p hp
    · rw [List.mem_singleton] at hp
      subst hp
      exact hinit

theorem gmApply_pred (parse : String → Option DateTime) (gm : List (String × GuardStats))
    (a : ActivityRecord) (P : String → GuardStats → Prop)
    (hgm : ∀ p ∈ gm, P p.1 p.2)
    (hinit : P a.serviceNumber (initGuard a))
    (hbump : ∀ g, P a.serviceNumber g → P a.serviceNumber (bumpGuard parse a g))
    (haccp : ∀ acc g, P a.serviceNumber g → P a.serviceNumber (accGuard acc g)) :
    ∀ p ∈ gmApply parse gm a, P p.1 p.2 := by
  unfold gmApply
  by_cases hsn : a.serviceNumber = ""
  · rw [if_pos hsn]; exact hgm
  · rw [if_neg hsn]
    cases hext : extractNat a.locationAccuracy with
    | none => exact gmRegister_pred parse gm a P hgm hinit hbump
    | some acc =>
      dsimp only
      by_cases h50 : 50 < acc
      · rw [if_pos h50]
        exact aupdate_pred P _ _ _ (gmRegister_pred parse gm a P hgm hinit hbump) (haccp acc)
      · rw [if_neg h50]
        exact gmRegister_pred parse gm a P hgm hinit hbump

theorem actRun_idInv (parse : String → Option DateTime) :
    ∀ (rows : List ActivityRecord) (st st' : ActState), actRun parse st rows = some st' →
    (∀ p ∈ st.guardMetrics, (p.2).id = p.1) →
    ∀ p ∈ st'.guardMetrics, (p.2).id = p.1 := by
  intro rows
  induction rows with
  | nil =>
    intro st st' h hinv
    simp only [actRun] at h; injection h with h; subst h
    exact hinv
  | cons a rest ih =>
    intro st st' h hinv
    obtain ⟨st1, hstep, hrun⟩ := actRun_cons_inv parse st a rest st' h
    rcases actStep_inv parse st a st1 hstep with ⟨hdt, heq⟩ | ⟨hdt, d, hp, heq⟩
    · rw [heq] at hrun; exact ih st st' hrun hinv
    · rw [heq] at hrun
      refine ih (actApply parse st a d) st' hrun ?_
      rw [actApply_guardMetrics]
      refine gmApply_pred parse st.guardMetrics a (fun k g => g.id = k) hinv rfl ?_ ?_
      · intro g hg; rw [bumpGuard_id]; exact hg
      · intro acc g hg; exact hg

theorem mem_ug_step (ug : List String) (sn x : String) :
    (x ∈ (if sn = "" then ug else jsSetAdd ug sn)) ↔ x ∈ ug ∨ (sn ≠ "" ∧ x = sn) := by
  by_cases hsn : sn = ""
  · simp [hsn]
  · simp [hsn, mem_jsSetAdd]

theorem cnt_step_combine (S : Prop) (a : ActivityRecord) (rest : List ActivityRecord)
    (x : String) (hlive : isLive a = true) :
    ((S ∨ (a.serviceNumber ≠ "" ∧ x = a.serviceNumber)) ∨ (x ≠ "" ∧ 0 < cntSN x rest)) ↔
      (S ∨ (x ≠ "" ∧ 0 < cntSN x (a :: rest))) := by
  rw [cntSN_cons, hlive]
  by_cases hx : a.serviceNumber = x
  · subst hx
    simp only [beq_self_eq_true, Bool.true_and, Bool.and_self, if_true]
    have hpos : 0 < cntSN a.serviceNumber rest + 1 := Nat.succ_pos _
    constructor
    · rintro ((h | ⟨h1, _⟩) | ⟨h1, h2⟩)
      · exact Or.inl h
      · exact Or.inr ⟨h1, hpos⟩
      · exact Or.inr ⟨h1, hpos⟩
    · rintro (h | ⟨h1, _⟩)
      · exact Or.inl (Or.inl h)
      · exact Or.inl (Or.inr ⟨h1, trivial⟩)
  · have hb : (a.serviceNumber == x) = false := beq_eq_false_iff_ne.mpr hx
    simp only [hb, Bool.true_and, Bool.and_false, if_false, Nat.add_zero]
    constructor
    · rintro ((h | ⟨h1, h2⟩) | hr)
      · exact Or.inl h
      · exact absurd h2 (fun h => hx h.symm)
      · exact Or.inr hr
    · rintro (h | hr)
      · exact Or.inl (Or.inl h)
      · exact Or.inr hr

theorem actRun_ug (parse : String → Option DateTime) :
    ∀ (rows : List ActivityRecord) (st st' : ActState), actRun parse st rows = some st' →
    ((∀ x, x ∈ st'.uniqueGuards ↔ x ∈ st.uniqueGuards ∨ (x ≠ "" ∧ 0 < cntSN x rows)) ∧
     (st.uniqueGuards.Nodup → st'.uniqueGuards.Nodup)) := by
  intro rows
  induction rows with
  | nil =>
    intro st st' h
    simp only [actRun] at h; injection h with h; subst h
    exact ⟨fun x => by simp [cntSN], id⟩
  | cons a rest ih =>
    intro st st' h
    obtain ⟨st1, hstep, hrun⟩ := actRun_cons_inv parse st a rest st' h
    rcases actStep_inv parse st a st1 hstep with ⟨hdt, heq⟩ | ⟨hdt, d, hp, heq⟩
    · rw [heq] at hrun
      have hlive : isLive a = false := by simp [isLive, hdt]
      rcases ih st st' hrun with ⟨hmem, hnd⟩
      refine ⟨fun x => ?_, hnd⟩
      rw [hmem x, cntSN_cons, hlive]
      simp
    · rw [heq] at hrun
      have hlive : isLive a = true := by simp [isLive, hdt]
      rcases ih (actApply parse st a d) st' hrun with ⟨hmem, hnd⟩
      constructor
      · intro x
        rw [hmem x]
        have hstep_mem : x ∈ (actApply parse st a d).uniqueGuards ↔
            x ∈ st.uniqueGuards ∨ (a.serviceNumber ≠ "" ∧ x = a.serviceNumber) := by
          rw [actApply_uniqueGuards]; exact mem_ug_step _ _ _
        rw [hstep_mem]
        exact cnt_step_combine _ a rest x hlive
      · intro hd
        apply hnd
        rw [actApply_uniqueGuards]
        by_cases hsn : a.serviceNumber = ""
        · simpa [hsn]
        · rw [if_neg hsn]; exact nodup_jsSetAdd _ _ hd

theorem mem_keysOf_gmApply (parse : String → Option DateTime) (gm : List (String × GuardStats))
    (a : ActivityRecord) (x : String) :
    x ∈ keysOf (gmApply parse gm a) ↔
      x ∈ keysOf gm ∨ (a.serviceNumber ≠ "" ∧ x = a.serviceNumber) := by
  rw [keysOf_gmApply]
  by_cases hc : a.serviceNumber = "" ∨ (alookup gm a.serviceNumber).isSome
  · rw [if_pos hc]
    constructor
    · exact Or.inl
    · rintro (h | ⟨hsn, rfl⟩)
      · exact h
      · rcases hc with hc | hc
        · exact absurd hc hsn
        · exact (alookup_isSome_iff_mem gm _).mp hc
  · rw [if_neg hc]
    push_neg at hc
    rw [List.mem_append, List.mem_singleton]
    constructor
    · rintro (h | rfl)
      · exact Or.inl h
      · exact Or.inr ⟨hc.1, rfl⟩
    · rintro (h | ⟨h1, rfl⟩)
      · exact Or.inl h
      · exact Or.inr rfl

theorem nodup_keysOf_gmApply (parse : String → Option DateTime) (gm : List (String × GuardStats))
    (a : ActivityRecord) (hd : (keysOf gm).Nodup) :
    (keysOf (gmApply parse gm a)).Nodup := by
  rw [keysOf_gmApply]
  by_cases hc : a.serviceNumber = "" ∨ (alookup gm a.serviceNumber).isSome
  · rw [if_pos hc]; exact hd
  · rw [if_neg hc]
    push_neg at hc
    rw [List.nodup_append]
    refine ⟨hd, List.nodup_singleton _, fun y hy hy2 => ?_⟩
    rw [List.mem_singleton] at hy2
    subst hy2
    exact hc.2 ((alookup_isSome_iff_mem gm _).mpr hy)

theorem actRun_keys (parse : String → Option DateTime) :
    ∀ (rows : List ActivityRecord) (st st' : ActState), actRun parse st rows = some st' →
    ((∀ x, x ∈ keysOf st'.guardMetrics ↔
        x ∈ keysOf st.guardMetrics ∨ (x ≠ "" ∧ 0 < cntSN x rows)) ∧
     ((keysOf st.guardMetrics).Nodup → (keysOf st'.guardMetrics).Nodup)) := by
  intro rows
  induction rows with
  | nil =>
    intro st st' h
    simp only [actRun] at h; injection h with h; subst h
    exact ⟨fun x => by simp [cntSN], id⟩
  | cons a rest ih =>
    intro st st' h
    obtain ⟨st1, hstep, hrun⟩ := actRun_cons_inv parse st a rest st' h
    rcases actStep_inv parse st a st1 hstep with ⟨hdt, heq⟩ | ⟨hdt, d, hp, heq⟩
    · rw [heq] at hrun
      have hlive : isLive a = false := by simp [isLive, hdt]
      rcases ih st st' hrun with ⟨hmem, hnd⟩
      refine ⟨fun x => ?_, hnd⟩
      rw [hmem x, cntSN_cons, hlive]
      simp
    · rw [heq] at hrun
      have hlive : isLive a = true := by simp [isLive, hdt]
      rcases ih (actApply parse st a d) st' hrun with ⟨hmem, hnd⟩
      constructor
      · intro x
        rw [hmem x]
        have hstep_mem : x ∈ keysOf (actApply parse st a d).guardMetrics ↔
            x ∈ keysOf st.guardMetrics ∨ (a.serviceNumber ≠ "" ∧ x = a.serviceNumber) := by
          rw [actApply_guardMetrics]; exact mem_keysOf_gmApply parse st.guardMetrics a x
        rw [hstep_mem]
        exact cnt_step_combine _ a rest x hlive
      · intro hd
        apply hnd
        rw [actApply_guardMetrics]
        exact nodup_keysOf_gmApply parse st.guardMetrics a hd

theorem actsOf_gmApply_self (parse : String → Option DateTime) (gm : List (String × GuardStats))
    (a : ActivityRecord) (hsn : a.serviceNumber ≠ "") :
    actsOf (alookup (gmApply parse gm a) a.serviceNumber) =
      actsOf (alookup gm a.serviceNumber) + 1 := by
  rw [alookup_gmApply_self parse gm a hsn]
  cases hg : alookup gm a.serviceNumber with
  | some g => simp [actsOf, gmNext_activities]
  | none => simp [actsOf, gmNext_activities, initGuard]

theorem actRun_acts (parse : String → Option DateTime) :
    ∀ (rows : List ActivityRecord) (st st' : ActState), actRun parse st rows = some st' →
    ∀ k, k ≠ "" →
      actsOf (alookup st'.guardMetrics k) = actsOf (alookup st.guardMetrics k) + cntSN k rows := by
  intro rows
  induction rows with
  | nil =>
    intro st st' h k hk
    simp only [actRun] at h; injection h with h; subst h
    simp [cntSN]
  | cons a rest ih =>
    intro st st' h k hk
    obtain ⟨st1, hstep, hrun⟩ := actRun_cons_inv parse st a rest st' h
    rcases actStep_inv parse st a st1 hstep with ⟨hdt, heq⟩ | ⟨hdt, d, hp, heq⟩
    · rw [heq] at hrun
      have hlive : isLive a = false := by simp [isLive, hdt]
      rw [ih st st' hrun k hk, cntSN_cons, hlive]
      simp
    · rw [heq] at hrun
      have hlive : isLive a = true := by simp [isLive, hdt]
      rw [ih (actApply parse st a d) st' hrun k hk, actApply_guardMetrics, cntSN_cons, hlive]
      by_cases hks : a.serviceNumber = k
      · subst hks
        rw [actsOf_gmApply_self parse st.guardMetrics a hk]
        simp only [beq_self_eq_true, Bool.true_and, Bool.and_self, if_true]
        omega
      · have hkns : k ≠ a.serviceNumber := fun h => hks h.symm
        rw [alookup_gmApply_ne parse st.guardMetrics a k hkns]
        have hb : (a.serviceNumber == k) = false := beq_eq_false_iff_ne.mpr hks
        simp [hb]

theorem gmApply_preserve (parse : String → Option DateTime) (gm : List (String × GuardStats))
    (a : ActivityRecord) (k : String) (g : GuardStats) (hk : k ≠ "")
    (hg : alookup gm k = some g) :
    ∃ g', alookup (gmApply parse gm a) k = some g' ∧ g'.onTime = g.onTime ∧ g'.id = g.id := by
  by_cases hks : k = a.serviceNumber
  · subst hks
    rw [alookup_gmApply_self parse gm a hk]
    refine ⟨_, rfl, ?_, ?_⟩
    · rw [gmNext_onTime]; simp [hg]
    · rw [gmNext_id]; simp [hg]
  · exact ⟨g, by rw [alookup_gmApply_ne parse gm a k hks]; exact hg, rfl, rfl⟩

theorem gmApply_create (parse : String → Option DateTime) (gm : List (String × GuardStats))
    (a : ActivityRecord) (hsn : a.serviceNumber ≠ "")
    (hg : alookup gm a.serviceNumber = none) :
    ∃ g', alookup (gmApply parse gm a) a.serviceNumber = some g' ∧
      g'.onTime = (initGuard a).onTime ∧ g'.id = a.serviceNumber := by
  rw [alookup_gmApply_self parse gm a hsn, hg]
  exact ⟨_, rfl, by rw [gmNext_onTime]; rfl, by rw [gmNext_id]; rfl⟩

theorem actRun_first (parse : String → Option DateTime) :
    ∀ (rows : List ActivityRecord) (st st' : ActState), actRun parse st rows = some st' →
    ∀ k, k ≠ "" →
    ((∀ g, alookup st.guardMetrics k = some g →
        ∃ g', alookup st'.guardMetrics k = some g' ∧ g'.onTime = g.onTime ∧ g'.id = g.id) ∧
     (alookup st.guardMetrics k = none →
        (firstSN k rows = none ∧ alookup st'.guardMetrics k = none) ∨
        (∃ a g', firstSN k rows = some a ∧ alookup st'.guardMetrics k = some g' ∧
          g'.onTime = (initGuard a).onTime ∧ g'.id = k))) := by
  intro rows
  induction rows with
  | nil =>
    intro st st' h k hk
    simp only [actRun] at h; injection h with h; subst h
    refine ⟨fun g hg => ⟨g, hg, rfl, rfl⟩, fun hnone => Or.inl ⟨?_, hnone⟩⟩
    simp [firstSN]
  | cons a rest ih =>
    intro st st' h k hk
    obtain ⟨st1, hstep, hrun⟩ := actRun_cons_inv parse st a rest st' h
    rcases actStep_inv parse st a st1 hstep with ⟨hdt, heq⟩ | ⟨hdt, d, hp, heq⟩
    · rw [heq] at hrun
      have hlive : isLive a = false := by simp [isLive, hdt]
      rcases ih st st' hrun k hk with ⟨hpres, hcreate⟩
      refine ⟨hpres, fun hnone => ?_⟩
      rw [firstSN_cons, hlive]
      simp only [Bool.false_and, Bool.false_eq_true, if_false]
      exact hcreate hnone
    · rw [heq] at hrun
      have hlive : isLive a = true := by simp [isLive, hdt]
      rcases ih (actApply parse st a d) st' hrun k hk with ⟨hpres, hcreate⟩
      rw [actApply_guardMetrics] at hpres hcreate
      constructor
      · intro g hg
        obtain ⟨g1, hg1, ho1, hi1⟩ := gmApply_preserve parse st.guardMetrics a k g hk hg
        obtain ⟨g', hg', ho', hi'⟩ := hpres g1 hg1
        exact ⟨g', hg', by rw [ho', ho1], by rw [hi', hi1]⟩
      · intro hnone
        rw [firstSN_cons, hlive]
        simp only [Bool.true_and]
        by_cases hks : a.serviceNumber = k
        · have hksT : (a.serviceNumber == k) = true := by simp [hks]
          rw [hksT]
          simp only [if_true]
          subst hks
          obtain ⟨g1, hg1, ho1, hi1⟩ := gmApply_create parse st.guardMetrics a hk hnone
          obtain ⟨g', hg', ho', hi'⟩ := hpres g1 hg1
          exact Or.inr ⟨a, g', rfl, hg', by rw [ho', ho1], by rw [hi', hi1]⟩
        · have hksF : (a.serviceNumber == k) = false := beq_eq_false_iff_ne.mpr hks
          rw [hksF]
          simp only [Bool.false_eq_true, if_false]
          have hnone1 : alookup (gmApply parse st.guardMetrics a) k = none := by
            rw [alookup_gmApply_ne parse st.guardMetrics a k (fun h => hks h.symm)]
            exact hnone
          exact hcreate hnone1

/-! ## Attendance-pass step projections -/

theorem attApply_totalShifts (st : AttState) (r : AttendanceRecord) :
    (attApply st r).totalShifts = st.totalShifts + (if hasPost r then 1 else 0) := by
  unfold attApply
  by_cases hp : r.postName = "" <;> by_cases hl : r.lateHours = "On-time" <;>
    simp [hp, hl, hasPost]

theorem attApply_missedScans (st : AttState) (r : AttendanceRecord) :
    (attApply st r).missedScans =
      if hasPost r then nanAdd st.missedScans (missVal r) else st.missedScans := by
  unfold attApply
  by_cases hp : r.postName = "" <;> by_cases hl : r.lateHours = "On-time" <;>
    simp [hp, hl, hasPost]

theorem attApply_onTimeCnt (st : AttState) (r : AttendanceRecord) :
    (attApply st r).onTime =
      st.onTime + (if hasPost r && (r.lateHours == "On-time") then 1 else 0) := by
  unfold attApply
  by_cases hp : r.postName = "" <;> by_cases hl : r.lateHours = "On-time" <;>
    simp [hp, hl, hasPost]

theorem attApply_lateCnt (st : AttState) (r : AttendanceRecord) :
    (attApply st r).late =
      st.late + (if hasPost r && !(r.lateHours == "On-time") then 1 else 0) := by
  unfold attApply
  by_cases hp : r.postName = "" <;> by_cases hl : r.lateHours = "On-time" <;>
    simp [hp, hl, hasPost]

theorem attApply_locationCoverage (st : AttState) (r : AttendanceRecord) :
    (attApply st r).locationCoverage = lcApply st.locationCoverage r := by
  unfold attApply lcApply
  by_cases hp : r.postName = "" <;> by_cases hl : r.lateHours = "On-time" <;>
    simp [hp, hl]

theorem locNext_totalScans (r : AttendanceRecord) (l : LocationStats) :
    (locNext r l).totalScans = l.totalScans + 1 := by
  unfold locNext
  by_cases hl : r.lateHours = "On-time" <;> simp [hl]

theorem locNext_accuracyIssues (r : AttendanceRecord) (l : LocationStats) :
    (locNext r l).accuracyIssues =
      l.accuracyIssues + (if r.lateHours = "On-time" then 0 else 1) := by
  unfold locNext
  by_cases hl : r.lateHours = "On-time" <;> simp [hl]

theorem alookup_lcApply_self (lc : List (String × LocationStats)) (r : AttendanceRecord)
    (hp : r.postName ≠ "") :
    alookup (lcApply lc r) r.postName =
      some (locNext r ((alookup lc r.postName).getD (initLoc r.postName))) := by
  unfold lcApply locNext
  rw [if_neg hp]
  cases hg : alookup lc r.postName with
  | some l =>
    by_cases hl : r.lateHours = "On-time" <;>
      simp [hg, hl, alookup_aupdate]
  | none =>
    by_cases hl : r.lateHours = "On-time" <;>
      simp [hg, hl, alookup_aupdate, alookup_append_single]

theorem alookup_lcApply_ne (lc : List (String × LocationStats)) (r : AttendanceRecord)
    (k : String) (hk : k ≠ r.postName) :
    alookup (lcApply lc r) k = alookup lc k := by
  unfold lcApply
  have hne : ¬ r.postName = k := fun h => hk h.symm
  by_cases hp : r.postName = ""
  · rw [if_pos hp]
  · rw [if_neg hp]
    by_cases hsome : (alookup lc r.postName).isSome <;>
      by_cases hl : r.lateHours = "On-time" <;>
        simp [hsome, hl, alookup_aupdate, alookup_append_single, hk, hne] <;>
          (cases hgk : alookup lc k <;> simp [hgk, hne])

theorem keysOf_lcApply (lc : List (String × LocationStats)) (r : AttendanceRecord) :
    keysOf (lcApply lc r) =
      if r.postName = "" ∨ (alookup lc r.postName).isSome then keysOf lc
      else keysOf lc ++ [r.postName] := by
  unfold lcApply
  by_cases hp : r.postName = ""
  · simp [hp]
  · rw [if_neg hp]
    by_cases hsome : (alookup lc r.postName).isSome <;>
      by_cases hl : r.lateHours = "On-time" <;>
        simp [hsome, hl, hp, keysOf_aupdate, keysOf_append_single]

theorem nodup_keysOf_lcApply (lc : List (String × LocationStats)) (r : AttendanceRecord)
    (hd : (keysOf lc).Nodup) : (keysOf (lcApply lc r)).Nodup := by
  rw [keysOf_lcApply]
  by_cases hc : r.postName = "" ∨ (alookup lc r.postName).isSome
  · rw [if_pos hc]; exact hd
  · rw [if_neg hc]
    push_neg at hc
    rw [List.nodup_append]
    refine ⟨hd, List.nodup_singleton _, fun y hy hy2 => ?_⟩
    rw [List.mem_singleton] at hy2
    subst hy2
    exact hc.2 ((alookup_isSome_iff_mem lc _).mpr hy)

theorem tsOf_lcApply_self (lc : List (String × LocationStats)) (r : AttendanceRecord)
    (hp : r.postName ≠ "") :
    tsOf (alookup (lcApply lc r) r.postName) = tsOf (alookup lc r.postName) + 1 := by
  rw [alookup_lcApply_self lc r hp]
  cases hg : alookup lc r.postName <;> simp [tsOf, locNext_totalScans, initLoc]

theorem aiOf_lcApply_self (lc : List (String × LocationStats)) (r : AttendanceRecord)
    (hp : r.postName ≠ "") :
    aiOf (alookup (lcApply lc r) r.postName) =
      aiOf (alookup lc r.postName) + (if r.lateHours = "On-time" then 0 else 1) := by
  rw [alookup_lcApply_self lc r hp]
  cases hg : alookup lc r.postName <;> simp [aiOf, locNext_accuracyIssues, initLoc]

theorem alookup_lcApply_empty (lc : List (String × LocationStats)) (r : AttendanceRecord) :
    alookup (lcApply lc r) "" = alookup lc "" := by
  by_cases hp : r.postName = ""
  · unfold lcApply; rw [if_pos hp]
  · exact alookup_lcApply_ne lc r "" (fun h => hp h.symm)

/-! ## Attendance-pass fold lemmas -/

theorem cntPost_cons (k : String) (r : AttendanceRecord) (rest : List AttendanceRecord) :
    cntPost k (r :: rest) = cntPost k rest + (if r.postName == k then 1 else 0) := by
  simp only [cntPost, List.filter_cons]
  split <;> simp

theorem cntPostLate_cons (k : String) (r : AttendanceRecord) (rest : List AttendanceRecord) :
    cntPostLate k (r :: rest) =
      cntPostLate k rest + (if r.postName == k && !(r.lateHours == "On-time") then 1 else 0) := by
  simp only [cntPostLate, List.filter_cons]
  split <;> simp

theorem length_filter_and_le {α : Type} (p q : α → Bool) (l : List α) :
    (l.filter (fun x => p x && q x)).length ≤ (l.filter p).length := by
  induction l with
  | nil => simp
  | cons a t ih =>
    by_cases hp : p a <;> by_cases hq : q a <;>
      (simp [List.filter_cons, hp, hq]; omega)

theorem attRun_cons (st : AttState) (r : AttendanceRecord) (rest : List AttendanceRecord) :
    attRun st (r :: rest) = attRun (attApply st r) rest := rfl

theorem attRun_scalars :
    ∀ (rows : List AttendanceRecord) (st : AttState),
    ((attRun st rows).totalShifts = st.totalShifts + (postRows rows).length ∧
     (attRun st rows).missedScans = nanAdd st.missedScans (nanSum (missVals rows))) := by
  intro rows
  induction rows with
  | nil => intro st; simp [attRun, postRows, missVals, nanSum, nanAdd_zero]
  | cons r rest ih =>
    intro st
    rcases ih (attApply st r) with ⟨h1, h2⟩
    constructor
    · rw [attRun_cons, h1, attApply_totalShifts]
      by_cases hp : hasPost r <;> (simp [postRows, List.filter_cons, hp]; try omega)
    · rw [attRun_cons, h2, attApply_missedScans]
      by_cases hp : hasPost r
      · simp [missVals, postRows, List.filter_cons, hp, nanSum, nanAdd_assoc]
      · simp [missVals, postRows, List.filter_cons, hp]

theorem attRun_loc :
    ∀ (rows : List AttendanceRecord) (st : AttState) (k : String), k ≠ "" →
    (tsOf (alookup (attRun st rows).locationCoverage k) =
       tsOf (alookup st.locationCoverage k) + cntPost k rows ∧
     aiOf (alookup (attRun st rows).locationCoverage k) =
       aiOf (alookup st.locationCoverage k) + cntPostLate k rows ∧
     ((alookup (attRun st rows).locationCoverage k).isSome ↔
       (alookup st.locationCoverage k).isSome ∨ 0 < cntPost k rows)) := by
  intro rows
  induction rows with
  | nil =>
    intro st k hk
    simp [attRun, cntPost, cntPostLate]
  | cons r rest ih =>
    intro st k hk
    rcases ih (attApply st r) k hk with ⟨h1, h2, h3⟩
    rw [attRun_cons]
    rw [attApply_locationCoverage] at h1 h2 h3
    by_cases hkp : r.postName = k
    · subst hkp
      refine ⟨?_, ?_, ?_⟩
      · rw [h1, tsOf_lcApply_self st.locationCoverage r hk, cntPost_cons]
        simp only [beq_self_eq_true, if_true]
        omega
      · rw [h2, aiOf_lcApply_self st.locationCoverage r hk, cntPostLate_cons]
        simp only [beq_self_eq_true, Bool.true_and]
        by_cases hl : r.lateHours = "On-time"
        · have hb : (r.lateHours == "On-time") = true := by simp [hl]
          simp [hb, hl]
        · have hb : (r.lateHours == "On-time") = false := beq_eq_false_iff_ne.mpr hl
          simp [hb, hl]
          omega
      · rw [h3, cntPost_cons]
        have hsome : (alookup (lcApply st.locationCoverage r) r.postName).isSome := by
          rw [alookup_lcApply_self st.locationCoverage r hk]; rfl
        simp [hsome]
    · have hkne : k ≠ r.postName := fun h => hkp h.symm
      have hb : (r.postName == k) = false := beq_eq_false_iff_ne.mpr hkp
      refine ⟨?_, ?_, ?_⟩
      · rw [h1, alookup_lcApply_ne st.locationCoverage r k hkne, cntPost_cons]
        simp [hb]
      · rw [h2, alookup_lcApply_ne st.locationCoverage r k hkne, cntPostLate_cons]
        simp [hb]
      · rw [h3, alookup_lcApply_ne st.locationCoverage r k hkne, cntPost_cons]
        simp [hb]

theorem attRun_locKeysNodup :
    ∀ (rows : List AttendanceRecord) (st : AttState),
    (keysOf st.locationCoverage).Nodup → (keysOf (attRun st rows).locationCoverage).Nodup := by
  intro rows
  induction rows with
  | nil => intro st hd; exact hd
  | cons r rest ih =>
    intro st hd
    rw [attRun_cons]
    refine ih (attApply st r) ?_
    rw [attApply_locationCoverage]
    exact nodup_keysOf_lcApply st.locationCoverage r hd

theorem attRun_loc_empty :
    ∀ (rows : List AttendanceRecord) (st : AttState),
    alookup (attRun st rows).locationCoverage "" = alookup st.locationCoverage "" := by
  intro rows
  induction rows with
  | nil => intro st; rfl
  | cons r rest ih =>
    intro st
    rw [attRun_cons, ih (attApply st r), attApply_locationCoverage]
    exact alookup_lcApply_empty st.locationCoverage r

/-! ## Remaining helper lemmas -/

theorem nanAdd_zero_left (x : Option Int) : nanAdd (some 0) x = x := by
  cases x <;> simp [nanAdd]

theorem length_eq_of_mem_iff (l1 l2 : List String) (h1 : l1.Nodup) (h2 : l2.Nodup)
    (h : ∀ x, x ∈ l1 ↔ x ∈ l2) : l1.length = l2.length := by
  rw [← List.toFinset_card_of_nodup h1, ← List.toFinset_card_of_nodup h2]
  congr 1
  apply Finset.ext
  intro x
  simp only [List.mem_toFinset]
  exact h x

theorem jsCoverage_isSome (t i : Nat) (ht : 0 < t) : (jsCoverage t i).isSome := by
  unfold jsCoverage
  rw [if_neg (Nat.pos_iff_ne_zero.mp ht)]
  rfl

theorem jsCoverage_all_issues (t : Nat) (ht : 0 < t) : jsCoverage t t = some 0 := by
  have ht' : (0 : Int) < (t : Int) := by exact_mod_cast ht
  unfold jsCoverage jsRoundInt
  rw [if_neg (Nat.pos_iff_ne_zero.mp ht)]
  have h0 : (2 : Int) * (100 * ((t : Int) - (t : Int))) + (t : Int) = (t : Int) := by ring
  rw [h0, Int.fdiv_eq_ediv _ (by omega)]
  rw [Int.ediv_eq_zero_of_lt (by omega) (by omega)]

theorem jsCoverage_no_issues (t : Nat) (ht : 0 < t) : jsCoverage t 0 = some 100 := by
  have ht' : (0 : Int) < (t : Int) := by exact_mod_cast ht
  unfold jsCoverage jsRoundInt
  rw [if_neg (Nat.pos_iff_ne_zero.mp ht)]
  have h0 : (2 : Int) * (100 * ((t : Int) - ((0 : Nat) : Int))) + (t : Int) =
      (t : Int) + 100 * (2 * (t : Int)) := by push_cast; ring
  rw [h0, Int.fdiv_eq_ediv _ (by omega),
      Int.add_mul_ediv_right _ _ (by omega : (2 : Int) * (t : Int) ≠ 0),
      Int.ediv_eq_zero_of_lt (by omega) (by omega)]
  norm_num

theorem not_jsBefore (d : DateTime) (b : Int) :
    (!jsBeforeBound (some d) b) = decide (b ≤ d.t) := by
  simp [jsBeforeBound, ← decide_not, not_lt]

theorem not_jsAfter (d : DateTime) (b : Int) :
    (!jsAfterBound (some d) b) = decide (d.t ≤ b) := by
  simp [jsAfterBound, ← decide_not, not_lt]

theorem keepByDate_eq_keepAmended (parse : String → Option DateTime) (s e : Option Int)
    (dt : String) : keepByDate parse s e dt = keepAmended parse s e dt := by
  unfold keepByDate keepAmended
  by_cases hdt : dt = ""
  · simp [hdt]
  · rw [if_neg hdt, if_neg hdt]
    cases hp : parse dt with
    | none => rcases s with _ | b1 <;> rcases e with _ | b2 <;> simp [jsBeforeBound, jsAfterBound]
    | some d =>
      rcases s with _ | b1 <;> rcases e with _ | b2 <;>
        simp [Bool.not_or, not_jsBefore, not_jsAfter]

theorem processAttendance_loc_char (rows : List AttendanceRecord) :
    ∀ l ∈ (processAttendanceData rows).locationStats,
      (0 < l.totalScans ∧ l.accuracyIssues ≤ l.totalScans ∧
       l.coverageRate = jsCoverage l.totalScans l.accuracyIssues) := by
  intro l hl
  simp only [processAttendanceData, finishAtt] at hl
  rw [List.mem_map] at hl
  obtain ⟨p, hp, hfl⟩ := hl
  have hnd : (keysOf (attRun attInit rows).locationCoverage).Nodup :=
    attRun_locKeysNodup rows attInit (by simp [attInit, keysOf])
  have hlook := alookup_of_mem_nodup hnd hp
  have hne : p.1 ≠ "" := by
    intro h0
    rw [h0, attRun_loc_empty rows attInit] at hlook
    simp [attInit, alookup] at hlook
  rcases attRun_loc rows attInit p.1 hne with ⟨h1, h2, h3⟩
  rw [hlook] at h1 h2 h3
  have hts : p.2.totalScans = cntPost p.1 rows := by
    simpa [tsOf, attInit, alookup] using h1
  have hai : p.2.accuracyIssues = cntPostLate p.1 rows := by
    simpa [aiOf, attInit, alookup] using h2
  have hpos : 0 < cntPost p.1 rows := by
    rcases h3.mp rfl with hcase | hcase
    · simp [attInit, alookup] at hcase
    · exact hcase
  have hle : cntPostLate p.1 rows ≤ cntPost p.1 rows := by
    unfold cntPostLate cntPost
    exact length_filter_and_le (fun r => r.postName == p.1)
      (fun r => !(r.lateHours == "On-time")) rows
  subst hfl
  refine ⟨?_, ?_, rfl⟩
  · rw [show (finishLoc p.2).totalScans = p.2.totalScans from rfl, hts]
    exact hpos
  · rw [show (finishLoc p.2).totalScans = p.2.totalScans from rfl,
        show (finishLoc p.2).accuracyIssues = p.2.accuracyIssues from rfl, hts, hai]
    exact hle

theorem cntSN_pos_iff_mem (k : String) (rows : List ActivityRecord) :
    0 < cntSN k rows ↔ k ∈ (liveRows rows).map (fun a => a.serviceNumber) := by
  unfold cntSN liveRows
  rw [List.length_pos_iff_exists_mem]
  constructor
  · rintro ⟨a, ha⟩
    rw [List.mem_filter] at ha
    rcases ha with ⟨hmem, hcond⟩
    rw [Bool.and_eq_true, beq_iff_eq] at hcond
    rw [List.mem_map]
    exact ⟨a, List.mem_filter.mpr ⟨hmem, hcond.1⟩, hcond.2⟩
  · intro hk
    rw [List.mem_map] at hk
    obtain ⟨a, hmem, hsn⟩ := hk
    rw [List.mem_filter] at hmem
    refine ⟨a, List.mem_filter.mpr ⟨hmem.1, ?_⟩⟩
    rw [Bool.and_eq_true, beq_iff_eq]
    exact ⟨hmem.2, hsn⟩

/-! ## Claim theorems -/

/-- Claim C1, counterexample: the claim says a record whose timestamp is
non-empty but unparseable is skipped entirely, contributing to no bucket.
In the source, such a record reaches `hourlyData[date.getHours()].count++`
with `getHours()` returning NaN, so the pass throws a `TypeError` and
produces no buckets at all (modelled as `none`), instead of skipping. -/
theorem claim_C1_counterexample : processActivityData noParse [rowBadTs] = none := by decide

/-- Claim C1, amended: the activity pass succeeds exactly when every record
with a non-empty timestamp parses; records with empty timestamps are skipped;
when the pass succeeds, the sum of the 24 hourly bucket counts equals the
number of rows with a parseable timestamp. -/
theorem claim_C1_amended (parse : String → Option DateTime) (rows : List ActivityRecord)
    (hE : parse "" = none) :
    ((processActivityData parse rows).isSome ↔
      ∀ a ∈ rows, a.dateTime ≠ "" → (parse a.dateTime).isSome) ∧
    (∀ res, processActivityData parse rows = some res →
      sumCounts res.activityData =
        (rows.filter (fun a => (parse a.dateTime).isSome)).length) := by
  constructor
  · have hiff := actRun_isSome_iff parse rows actInit
    unfold processActivityData
    rw [← hiff]
    cases hr : actRun parse actInit rows <;> simp
  · intro res hres
    unfold processActivityData at hres
    cases hr : actRun parse actInit rows with
    | none => rw [hr] at hres; simp at hres
    | some st' =>
      rw [hr] at hres
      rw [show Option.map finishAct (some st') = some (finishAct st') from rfl] at hres
      injection hres with hres
      subst hres
      rcases actRun_totals parse rows actInit st' hr with ⟨h1, _, _⟩
      rw [sumCounts_finishAct, h1]
      have hzero : (∑ h : Fin 24, actInit.count h) = 0 := by simp [actInit]
      rw [hzero, Nat.zero_add]
      have hsucc : ∀ a ∈ rows, a.dateTime ≠ "" → (parse a.dateTime).isSome := by
        apply (actRun_isSome_iff parse rows actInit).mp
        rw [hr]; rfl
      unfold liveRows
      have hfe : rows.filter isLive = rows.filter (fun a => (parse a.dateTime).isSome) := by
        apply List.filter_congr
        intro a ha
        by_cases hdt : a.dateTime = ""
        · simp [isLive, hdt, hE]
        · simp [isLive, hdt, hsucc a ha hdt]
      rw [hfe]

/-- Claim C1, witness: the amended statement at the concrete input
`[rowLive, rowAcc75]` with the parse function `parseT`. -/
theorem claim_C1_witness :
    ((processActivityData parseT [rowLive, rowAcc75]).isSome ↔
      ∀ a ∈ [rowLive, rowAcc75], a.dateTime ≠ "" → (parseT a.dateTime).isSome) ∧
    (∀ res, processActivityData parseT [rowLive, rowAcc75] = some res →
      sumCounts res.activityData =
        ([rowLive, rowAcc75].filter (fun a => (parseT a.dateTime).isSome)).length) :=
  claim_C1_amended parseT [rowLive, rowAcc75] (by decide)

/-- Claim C2, counterexample: the claim says the average is taken over
exactly the rows whose parsed accuracy exceeds 50 m. On the input with
readings 75 and 30 the claim predicts 75, but the source accumulates every
parsed reading (lines 172–174), giving round(105/2) = 53. -/
theorem claim_C2_counterexample :
    (processActivityData parseT [rowAcc75, rowAcc30]).map (fun r => r.avgLocationAccuracy) ≠
      some (claimAvgC2 [rowAcc75, rowAcc30]) ∧
    (processActivityData parseT [rowAcc75, rowAcc30]).map (fun r => r.avgLocationAccuracy) =
      some 53 ∧
    claimAvgC2 [rowAcc75, rowAcc30] = 75 := by decide

/-- Claim C2, amended: the average-location-accuracy metric is 0 when no
processed row has a parseable numeric accuracy value, and otherwise equals
`round(sum/count)` over all processed rows with a parseable numeric accuracy
value (not only those exceeding 50 m). -/
theorem claim_C2_amended (parse : String → Option DateTime) (rows : List ActivityRecord)
    (res : ActivityResult) (h : processActivityData parse rows = some res) :
    res.avgLocationAccuracy =
      (if (accVals rows).isEmpty then 0
       else jsRoundNat (accVals rows).sum (accVals rows).length) := by
  unfold processActivityData at h
  cases hr : actRun parse actInit rows with
  | none => rw [hr] at h; simp at h
  | some st' =>
    rw [hr] at h
    rw [show Option.map finishAct (some st') = some (finishAct st') from rfl] at h
    injection h with h
    subst h
    rcases actRun_totals parse rows actInit st' hr with ⟨_, h2, h3⟩
    have hr2 : st'.locationReadings = (accVals rows).length := by simpa [actInit] using h2
    have hr3 : st'.totalLocationAccuracy = (accVals rows).sum := by simpa [actInit] using h3
    show (if st'.locationReadings = 0 then 0
          else jsRoundNat st'.totalLocationAccuracy st'.locationReadings) = _
    rw [hr2, hr3]
    by_cases hv : (accVals rows).isEmpty
    · have hlen : (accVals rows).length = 0 := by
        rw [List.isEmpty_iff] at hv
        simp [hv]
      simp [hv, hlen]
    · have hlen : (accVals rows).length ≠ 0 := by
        intro h0
        rw [List.length_eq_zero] at h0
        apply hv
        rw [h0]
        rfl
      simp [hv, hlen]

/-- Claim C2, witness: the amended statement at the concrete input
`[rowAcc75, rowAcc30]`, whose published average is 53. -/
theorem claim_C2_witness :
    resC2W.avgLocationAccuracy =
      (if (accVals [rowAcc75, rowAcc30]).isEmpty then 0
       else jsRoundNat (accVals [rowAcc75, rowAcc30]).sum (accVals [rowAcc75, rowAcc30]).length) :=
  claim_C2_amended parseT [rowAcc75, rowAcc30] resC2W (by decide)

/-- Claim C3, counterexample: the claim says records whose date field fails
to parse are excluded unconditionally. In the source an Invalid Date
compares false against both bounds, so such records are kept: on a
single-record collection with an unparseable date the filter returns the
record while the claimed filter returns nothing. -/
theorem claim_C3_counterexample :
    filteredActivityData noParse none none [rowBadTs] ≠
      specFilteredActivityC3 noParse none none [rowBadTs] ∧
    filteredActivityData noParse none none [rowBadTs] = [rowBadTs] ∧
    specFilteredActivityC3 noParse none none [rowBadTs] = [] := by decide

/-- Claim C3, amended: both record filters return the order-preserving
subsequence described by `keepAmended`: records with empty date fields are
excluded unconditionally; records whose date parses are kept exactly when
they lie within the bounds inclusively at both ends; records whose non-empty
date field fails to parse are retained (not excluded). -/
theorem claim_C3_amended (parse : String → Option DateTime) (s e : Option Int)
    (actRows : List ActivityRecord) (attRows : List AttendanceRecord) :
    filteredActivityData parse s e actRows =
      actRows.filter (fun a => keepAmended parse s e a.dateTime) ∧
    filteredAttendanceData parse s e attRows =
      attRows.filter (fun r => keepAmended parse s e r.loginDate) := by
  constructor
  · unfold filteredActivityData
    apply List.filter_congr
    intro a _
    exact keepByDate_eq_keepAmended parse s e a.dateTime
  · unfold filteredAttendanceData
    apply List.filter_congr
    intro r _
    exact keepByDate_eq_keepAmended parse s e r.loginDate

/-- Claim C4: on an attendance input that is empty after filtering, the
source computes `Math.round((0/0)*100)`, i.e. NaN (modelled `none`), for the
on-time rate — it does not throw, but it does not yield the claimed fallback
value 0 either. The spec itself (§9) notes this division is unguarded, so
the claim states the intent and the code diverges from it. -/
theorem claim_C4_code_bug :
    (processAttendanceData []).totalShifts = 0 ∧
    (processAttendanceData []).onTimeRate = none ∧
    (processAttendanceData []).onTimeRate ≠ some 0 := by decide

/-- Claim C5, counterexample: the claim says re-derivation happens for every
state of the four inputs. The effect returns early when either raw set is
empty (source line 301): in the state `stSkip` (empty raw activity set) the
stale published value with `totalShifts = 99` is kept, while unconditional
re-derivation would publish `totalShifts = 1`. -/
theorem claim_C5_counterexample :
    some (runEffect noParse stSkip) ≠
      specRecompute noParse stSkip.activityRaw stSkip.attendanceRaw
        stSkip.startDate stSkip.endDate ∧
    (runEffect noParse stSkip).metrics.totalShifts = 99 ∧
    (specRecompute noParse stSkip.activityRaw stSkip.attendanceRaw stSkip.startDate
        stSkip.endDate).map (fun p => p.metrics.totalShifts) = some 1 := by decide

/-- Claim C5, amended: whenever both raw sets are non-empty and the activity
pass does not throw on the filtered set, the published value equals the
unconditional re-derivation (filter both raw sets with the current bounds,
run both aggregators, publish the merged metrics, buckets, guards and
locations); the previously published state does not influence the result. -/
theorem claim_C5_amended (parse : String → Option DateTime) (st : DashState)
    (ha : st.activityRaw ≠ []) (hb : st.attendanceRaw ≠ [])
    (hs : (processActivityData parse
        (filteredActivityData parse st.startDate st.endDate st.activityRaw)).isSome) :
    some (runEffect parse st) =
      specRecompute parse st.activityRaw st.attendanceRaw st.startDate st.endDate := by
  have hae : st.activityRaw.isEmpty = false := by
    cases hx : st.activityRaw with
    | nil => exact absurd hx ha
    | cons y ys => rfl
  have hbe : st.attendanceRaw.isEmpty = false := by
    cases hx : st.attendanceRaw with
    | nil => exact absurd hx hb
    | cons y ys => rfl
  obtain ⟨a, hares⟩ := Option.isSome_iff_exists.mp hs
  simp only [runEffect, specRecompute, hae, hbe, Bool.or_self, Bool.false_eq_true,
             if_false, hares]
  rfl

/-- Claim C5, witness: the amended statement at the concrete state `stBoth`
(one activity row, one attendance row, no bounds). -/
theorem claim_C5_witness :
    some (runEffect parseT stBoth) =
      specRecompute parseT stBoth.activityRaw stBoth.attendanceRaw
        stBoth.startDate stBoth.endDate :=
  claim_C5_amended parseT stBoth (by decide) (by decide) (by decide)

/-- Claim C6, counterexample: the claim says the miss-count field defaults
to 0 when unparseable. In the source, parseInt of the text abc is NaN and
`missedScans += NaN` poisons the whole total to NaN (modelled `none`),
while the claimed reading predicts a total of 0. -/
theorem claim_C6_counterexample :
    (processAttendanceData [attRowMissBad]).missedScans = none ∧
    specMissTotalC6 [attRowMissBad] = 0 ∧
    (processAttendanceData [attRowMissBad]).missedScans ≠
      some ((specMissTotalC6 [attRowMissBad] : Nat) : Int) := by decide

/-- Claim C6, amended: the total missed-scan metric is the NaN-propagating
sum, over the records with a non-empty post name, of the per-record value:
an empty miss field contributes 0 (the falsy-or fallback); a non-empty field
is read with JavaScript `parseInt` (signed decimal prefix) and an
unparseable non-empty field contributes NaN, making the whole total NaN. -/
theorem claim_C6_amended (rows : List AttendanceRecord) :
    (processAttendanceData rows).missedScans = nanSum (missVals rows) := by
  have h := (attRun_scalars rows attInit).2
  rw [show attInit.missedScans = some 0 from rfl, nanAdd_zero_left] at h
  exact h

/-- Claim C7: for every successful activity pass, there is exactly one
GuardStat per distinct non-empty service number among the processed rows
(ids are duplicate-free and match exactly those service numbers), each
activity count of each guard equals the number of processed rows carrying its
service number, the distinct-guard metric equals the number of GuardStats,
and rows with an empty service number still contribute to the hourly buckets
and to the accuracy average while creating no GuardStat. -/
theorem claim_C7 (parse : String → Option DateTime) (rows : List ActivityRecord)
    (res : ActivityResult) (h : processActivityData parse rows = some res) :
    ((res.guardStats.map (fun g => g.id)).Nodup ∧
     (∀ k : String, k ∈ res.guardStats.map (fun g => g.id) ↔
        (k ≠ "" ∧ k ∈ (liveRows rows).map (fun a => a.serviceNumber))) ∧
     (∀ g ∈ res.guardStats, g.activities = cntSN g.id rows) ∧
     res.totalGuards = res.guardStats.length ∧
     sumCounts res.activityData = (liveRows rows).length ∧
     res.avgLocationAccuracy =
       (if (accVals rows).isEmpty then 0
        else jsRoundNat (accVals rows).sum (accVals rows).length)) := by
  unfold processActivityData at h
  cases hr : actRun parse actInit rows with
  | none => rw [hr] at h; simp at h
  | some st' =>
    rw [hr] at h
    rw [show Option.map finishAct (some st') = some (finishAct st') from rfl] at h
    injection h with h
    subst h
    have hidinv : ∀ p ∈ st'.guardMetrics, (p.2).id = p.1 :=
      actRun_idInv parse rows actInit st' hr (by intro p hp; simp [actInit] at hp)
    have hkeys := actRun_keys parse rows actInit st' hr
    have hnd : (keysOf st'.guardMetrics).Nodup := hkeys.2 (by simp [actInit, keysOf])
    have hids : (finishAct st').guardStats.map (fun g => g.id) = keysOf st'.guardMetrics := by
      show (st'.guardMetrics.map (fun p => finishGuard p.2)).map (fun g => g.id) = _
      rw [List.map_map]
      apply List.map_congr_left
      intro p hp
      show (finishGuard p.2).id = p.1
      rw [show (finishGuard p.2).id = (p.2).id from rfl]
      exact hidinv p hp
    have hmemkeys : ∀ k, k ∈ keysOf st'.guardMetrics ↔ (k ≠ "" ∧ 0 < cntSN k rows) := by
      intro k
      rw [hkeys.1 k]
      simp [actInit, keysOf]
    refine ⟨?_, ?_, ?_, ?_, ?_, ?_⟩
    · rw [hids]; exact hnd
    · intro k
      rw [hids, hmemkeys k, cntSN_pos_iff_mem]
    · intro g hg
      rw [show (finishAct st').guardStats = st'.guardMetrics.map (fun p => finishGuard p.2)
            from rfl, List.mem_map] at hg
      obtain ⟨p, hp, hgp⟩ := hg
      have hlook := alookup_of_mem_nodup hnd hp
      have hkne : p.1 ≠ "" := by
        intro h0
        have hm : p.1 ∈ keysOf st'.guardMetrics := mem_keysOf_of_mem hp
        rw [hmemkeys p.1] at hm
        exact hm.1 h0
      have hacts := actRun_acts parse rows actInit st' hr p.1 hkne
      rw [hlook] at hacts
      rw [show actsOf (alookup actInit.guardMetrics p.1) = 0 from rfl, Nat.zero_add] at hacts
      subst hgp
      rw [show (finishGuard p.2).activities = (p.2).activities from rfl,
          show (finishGuard p.2).id = (p.2).id from rfl, hidinv p hp]
      exact hacts
    · have hug := actRun_ug parse rows actInit st' hr
      have hugnd : st'.uniqueGuards.Nodup := hug.2 (by simp [actInit])
      have hugmem : ∀ x, x ∈ st'.uniqueGuards ↔ (x ≠ "" ∧ 0 < cntSN x rows) := by
        intro x
        rw [hug.1 x]
        simp [actInit]
      show st'.uniqueGuards.length = (st'.guardMetrics.map (fun p => finishGuard p.2)).length
      rw [List.length_map]
      have hkl : (keysOf st'.guardMetrics).length = st'.guardMetrics.length := by
        simp [keysOf]
      rw [← hkl]
      apply length_eq_of_mem_iff _ _ hugnd hnd
      intro x
      rw [hugmem x, hmemkeys x]
    · rcases actRun_totals parse rows actInit st' hr with ⟨h1, _, _⟩
      rw [sumCounts_finishAct, h1]
      simp [actInit]
    · rcases actRun_totals parse rows actInit st' hr with ⟨_, h2, h3⟩
      have hr2 : st'.locationReadings = (accVals rows).length := by simpa [actInit] using h2
      have hr3 : st'.totalLocationAccuracy = (accVals rows).sum := by simpa [actInit] using h3
      show (if st'.locationReadings = 0 then 0
            else jsRoundNat st'.totalLocationAccuracy st'.locationReadings) = _
      rw [hr2, hr3]
      by_cases hv : (accVals rows).isEmpty
      · have hlen : (accVals rows).length = 0 := by
          rw [List.isEmpty_iff] at hv
          simp [hv]
        simp [hv, hlen]
      · have hlen : (accVals rows).length ≠ 0 := by
          intro h0
          rw [List.length_eq_zero] at h0
          apply hv
          rw [h0]
          rfl
        simp [hv, hlen]

/-- Claim C7, witness: the statement at the concrete input
`[gRow1, gRowAnon]` (one row with service number SN1, one with an empty
service number), whose output is `resC7W`. -/
theorem claim_C7_witness :
    ((resC7W.guardStats.map (fun g => g.id)).Nodup ∧
     (∀ k : String, k ∈ resC7W.guardStats.map (fun g => g.id) ↔
        (k ≠ "" ∧ k ∈ (liveRows [gRow1, gRowAnon]).map (fun a => a.serviceNumber))) ∧
     (∀ g ∈ resC7W.guardStats, g.activities = cntSN g.id [gRow1, gRowAnon]) ∧
     resC7W.totalGuards = resC7W.guardStats.length ∧
     sumCounts resC7W.activityData = (liveRows [gRow1, gRowAnon]).length ∧
     resC7W.avgLocationAccuracy =
       (if (accVals [gRow1, gRowAnon]).isEmpty then 0
        else jsRoundNat (accVals [gRow1, gRowAnon]).sum (accVals [gRow1, gRowAnon]).length)) :=
  claim_C7 parseT [gRow1, gRowAnon] resC7W (by decide)

/-- Claim C9: for every guard published by a successful activity pass, the
status is warning exactly when its location-issue count is positive or its
on-time flag is false, and the on-time flag equals the comparison of the
time-accuracy field of the first-seen processed record with the literal
`On Time` (later records never recompute it). -/
theorem claim_C9 (parse : String → Option DateTime) (rows : List ActivityRecord)
    (res : ActivityResult) (h : processActivityData parse rows = some res) :
    ∀ g ∈ res.guardStats,
      ((g.status = "warning" ↔ (0 < g.locationIssues ∨ g.onTime = false)) ∧
       ∃ a, firstSN g.id rows = some a ∧ g.onTime = decide (a.timeAccuracy = "On Time")) := by
  unfold processActivityData at h
  cases hr : actRun parse actInit rows with
  | none => rw [hr] at h; simp at h
  | some st' =>
    rw [hr] at h
    rw [show Option.map finishAct (some st') = some (finishAct st') from rfl] at h
    injection h with h
    subst h
    have hidinv : ∀ p ∈ st'.guardMetrics, (p.2).id = p.1 :=
      actRun_idInv parse rows actInit st' hr (by intro p hp; simp [actInit] at hp)
    have hkeys := actRun_keys parse rows actInit st' hr
    have hnd : (keysOf st'.guardMetrics).Nodup := hkeys.2 (by simp [actInit, keysOf])
    intro g hg
    rw [show (finishAct st').guardStats = st'.guardMetrics.map (fun p => finishGuard p.2)
          from rfl, List.mem_map] at hg
    obtain ⟨p, hp, hgp⟩ := hg
    subst hgp
    constructor
    · by_cases hc : 0 < (p.2).locationIssues ∨ (p.2).onTime = false
      · rw [show (finishGuard p.2).status =
            (if 0 < (p.2).locationIssues ∨ (p.2).onTime = false then "warning" else "normal")
            from rfl, if_pos hc]
        simpa using hc
      · rw [show (finishGuard p.2).status =
            (if 0 < (p.2).locationIssues ∨ (p.2).onTime = false then "warning" else "normal")
            from rfl, if_neg hc]
        constructor
        · intro hcontr
          exact absurd hcontr (by decide)
        · intro hcontr
          exact absurd hcontr hc
    · have hlook := alookup_of_mem_nodup hnd hp
      have hkne : p.1 ≠ "" := by
        intro h0
        have hm : p.1 ∈ keysOf st'.guardMetrics := mem_keysOf_of_mem hp
        rw [hkeys.1 p.1] at hm
        rcases hm with hm | hm
        · simp [actInit, keysOf] at hm
        · exact hm.1 h0
      have hgid : (finishGuard p.2).id = p.1 := by
        rw [show (finishGuard p.2).id = (p.2).id from rfl]
        exact hidinv p hp
      rw [hgid]
      have hfirst := (actRun_first parse rows actInit st' hr p.1 hkne).2
        (by rw [show alookup actInit.guardMetrics p.1 = none from rfl])
      rcases hfirst with ⟨hfn, hlook2⟩ | ⟨a, g', hfa, hlook2, ho, hi⟩
      · rw [hlook] at hlook2
        cases hlook2
      · rw [hlook] at hlook2
        injection hlook2 with hlook2
        refine ⟨a, hfa, ?_⟩
        rw [show (finishGuard p.2).onTime = (p.2).onTime from rfl, hlook2, ho]
        rfl

/-- Claim C9, witness: the statement at the concrete input
`[gRow1, gRowLate]` — two records for SN1 whose time-accuracy fields differ;
the published on-time flag comes from the first record. -/
theorem claim_C9_witness :
    ((gC9W.status = "warning" ↔ (0 < gC9W.locationIssues ∨ gC9W.onTime = false)) ∧
     ∃ a, firstSN gC9W.id [gRow1, gRowLate] = some a ∧
       gC9W.onTime = decide (a.timeAccuracy = "On Time")) :=
  claim_C9 parseT [gRow1, gRowLate] resC9W (by decide) gC9W (by decide)

/-- Claim C8: the coverage rate of every published LocationStat is
`round(100 × (totalScans − accuracyIssues) / totalScans)`; in particular it
is 0 when all scans are accuracy issues and 100 when there are none. -/
theorem claim_C8 (rows : List AttendanceRecord) :
    ∀ l ∈ (processAttendanceData rows).locationStats,
      (l.coverageRate = jsCoverage l.totalScans l.accuracyIssues ∧
       (l.totalScans = l.accuracyIssues → l.coverageRate = some 0) ∧
       (l.accuracyIssues = 0 → l.coverageRate = some 100)) := by
  intro l hl
  obtain ⟨h1, h2, h3⟩ := processAttendance_loc_char rows l hl
  refine ⟨h3, fun he => ?_, fun he => ?_⟩
  · rw [h3, ← he]
    exact jsCoverage_all_issues l.totalScans h1
  · rw [h3, he]
    exact jsCoverage_no_issues l.totalScans h1

/-- Claim C8, witness: the statement at the concrete input
`[attRowA, attRowLate]` (post Gate-1, one on-time and one late row), whose
published entry is `locC8W` with coverage rate 50. -/
theorem claim_C8_witness :
    locC8W.coverageRate = jsCoverage locC8W.totalScans locC8W.accuracyIssues ∧
    (locC8W.totalScans = locC8W.accuracyIssues → locC8W.coverageRate = some 0) ∧
    (locC8W.accuracyIssues = 0 → locC8W.coverageRate = some 100) :=
  claim_C8 [attRowA, attRowLate] locC8W (by decide)

/-- Claim C10: every published LocationStat has at least one scan, because
an entry is only created in the same iteration that increments its scan
count; hence the coverage-rate division never sees a zero denominator
(the coverage rate is never the NaN value `none`). -/
theorem claim_C10 (rows : List AttendanceRecord) :
    ∀ l ∈ (processAttendanceData rows).locationStats,
      1 ≤ l.totalScans ∧ (l.coverageRate).isSome := by
  intro l hl
  obtain ⟨h1, _, h3⟩ := processAttendance_loc_char rows l hl
  refine ⟨h1, ?_⟩
  rw [h3]
  exact jsCoverage_isSome l.totalScans l.accuracyIssues h1

/-- Claim C10, witness: the statement at the concrete input `[attRowB]`,
whose published entry is `locC10W` with one scan and a defined coverage
rate. -/
theorem claim_C10_witness :
    1 ≤ locC10W.totalScans ∧ (locC10W.coverageRate).isSome :=
  claim_C10 [attRowB] locC10W (by decide)
